import Mathlib

/-!
hepop-go: codec (pkg/protocol/hep.go), configuration and writers

A shallow embedding of `DecodeHEP` and its three version decoders, of
`Config.Validate` (internal/config/config.go), of the statistics and batching of
the writers (internal/writer), of `initializeWriter` (cmd/hepop/main.go) and of the
insert of the ClickHouse sink, followed by theorems about them.

Conventions of the embedding

* a Go `[]byte` is a `List Byte` (`Byte = Fin 256`); `len(data)` is `List.length`;
* unsigned machine integers are natural numbers, and wrap-around is explicit where it
  can happen: `subUint16` for the 16-bit subtraction `chunk.Length-6`, `addUint64`
  for the 64-bit counters of `WriterStats`; a Go `int` of the configuration is an
  integer;
* a Go function returning `(*HEPPacket, error)` returns `Except Failure HEPPacket`;
  a run-time panic of the Go program (index or slice bound out of range) is the
  failure `Failure.runtimePanic`;
* the `for cursor < len(data)` loop of `decodeHEPv3` is a recursion on a fuel
  argument; `decodeHEPv3` supplies `len(data)` as fuel, which the loop can never
  use up because every iteration moves the cursor forward by at least six bytes
  (`DecodeHEP_ne_fuelExhausted`);
* a `[]byte` field that may share the backing array of the decoded buffer is
  described by a `PayloadStorage`, which is read against the current contents of that
  array.
-/

namespace HEP

/-- One octet of a packet buffer. -/
abbrev Byte := Fin 256

/-! ## Constants of the source -/

def HEPv1 : Nat := 1
def HEPv2 : Nat := 2
def HEPv3 : Nat := 3

def TypeIPProtocolFamily : Nat := 0x0001
def TypeIPProtocolID : Nat := 0x0002
def TypeIPSourceIP : Nat := 0x0003
def TypeIPDestinationIP : Nat := 0x0004
def TypeIPSourcePort : Nat := 0x0007
def TypeIPDestinationPort : Nat := 0x0008
def TypeTimestamp : Nat := 0x0009
def TypeProtocolType : Nat := 0x000a
def TypeCaptureAgentID : Nat := 0x000b
def TypeKeepAliveTimer : Nat := 0x000c
def TypeAuthKey : Nat := 0x000e
def TypePayload : Nat := 0x000f
def TypeCorrelationID : Nat := 0x0011
def TypeVLAN : Nat := 0x0012

/-- The ways in which a call of the decoder can fail to produce a packet: the three
error values declared in `hep.go`, a run-time panic of the Go program, and the
exhaustion of the loop fuel of the embedding. -/
inductive Failure where
  | ErrInvalidVersion
  | ErrPacketTooShort
  | ErrInvalidChunk
  | runtimePanic
  | fuelExhausted
  deriving DecidableEq, Repr

/-- The record `HEPPacket` of the source. `CID` is a Go string built from raw chunk
bytes, so it is kept as its byte sequence. -/
structure HEPPacket where
  Version : Nat
  Protocol : Nat
  SrcIP : String
  DstIP : String
  SrcPort : Nat
  DstPort : Nat
  Timestamp : Nat
  ProtoType : Nat
  NodeID : Nat
  NodeName : String
  Payload : List Byte
  CID : List Byte
  Vlan : Nat
  deriving DecidableEq, Repr

/-- The Go zero value of `HEPPacket`. -/
def HEPPacket.zero : HEPPacket :=
  { Version := 0, Protocol := 0, SrcIP := "", DstIP := "", SrcPort := 0, DstPort := 0,
    Timestamp := 0, ProtoType := 0, NodeID := 0, NodeName := "", Payload := [],
    CID := [], Vlan := 0 }

deriving instance DecidableEq for Except

/-- The record `hepChunk` of the source. -/
structure hepChunk where
  VendorID : Nat
  ChunkType : Nat
  Length : Nat
  Data : List Byte
  deriving DecidableEq, Repr

/-! ## Go primitives used by the decoder -/

/-- Indexing `data[i]`: panics when `i` is out of range. -/
def index (data : List Byte) (i : Nat) : Except Failure Byte :=
  match data.get? i with
  | some b => .ok b
  | none => .error .runtimePanic

/-- Slicing `data[lo:hi]`: panics unless `lo ≤ hi ≤ len(data)`. (Go checks `hi`
against the capacity; the buffer is taken to be exactly as large as its length. The
only slice expression of the decoder that can reach past the length is `data[18:22]`
in `decodeHEPv1` on a 21-byte buffer, and there `data[22:]` panics whatever the
capacity is.) -/
def slice (data : List Byte) (lo hi : Nat) : Except Failure (List Byte) :=
  if lo ≤ hi ∧ hi ≤ data.length then .ok ((data.drop lo).take (hi - lo))
  else .error .runtimePanic

/-- Slicing `data[lo:]`: panics unless `lo ≤ len(data)`. -/
def sliceFrom (data : List Byte) (lo : Nat) : Except Failure (List Byte) :=
  if lo ≤ data.length then .ok (data.drop lo) else .error .runtimePanic

/-- Go `binary.BigEndian.Uint16`: the first two bytes, most significant first;
panics on fewer than two bytes. -/
def Uint16 (b : List Byte) : Except Failure Nat :=
  match b with
  | b0 :: b1 :: _ => .ok (b0.val * 256 + b1.val)
  | _ => .error .runtimePanic

/-- Go `binary.BigEndian.Uint32`: the first four bytes, most significant first;
panics on fewer than four bytes. -/
def Uint32 (b : List Byte) : Except Failure Nat :=
  match b with
  | b0 :: b1 :: b2 :: b3 :: _ =>
      .ok (((b0.val * 256 + b1.val) * 256 + b2.val) * 256 + b3.val)
  | _ => .error .runtimePanic

/-- Go `binary.BigEndian.Uint64`: the first eight bytes, most significant first;
panics on fewer than eight bytes. -/
def Uint64 (b : List Byte) : Except Failure Nat :=
  match b with
  | b0 :: b1 :: b2 :: b3 :: b4 :: b5 :: b6 :: b7 :: _ =>
      .ok (((((((b0.val * 256 + b1.val) * 256 + b2.val) * 256 + b3.val) * 256
        + b4.val) * 256 + b5.val) * 256 + b6.val) * 256 + b7.val)
  | _ => .error .runtimePanic

/-- Subtraction of two `uint16` values, which wraps around modulo `2^16`. -/
def subUint16 (a b : Nat) : Nat := (a + 65536 - b) % 65536

/-! ### Go `net.IP.String` -/

/-- Decimal rendering of four octets separated by dots. -/
def dotted (a b c d : Byte) : String :=
  Nat.repr a.val ++ "." ++ Nat.repr b.val ++ "." ++ Nat.repr c.val ++ "." ++ Nat.repr d.val

/-- Two lower-case hexadecimal digits per byte (Go `hexString`). -/
def hexString (ip : List Byte) : String :=
  String.mk (ip.flatMap fun b => [Nat.digitChar (b.val / 16), Nat.digitChar (b.val % 16)])

/-- The eight 16-bit groups of a 16-byte address. -/
def groups16 : List Byte → List Nat
  | b0 :: b1 :: rest => (b0.val * 256 + b1.val) :: groups16 rest
  | _ => []

/-- Length of the run of zero groups starting at position `i`. -/
def zeroRun (gs : List Nat) (i : Nat) : Nat :=
  ((gs.drop i).takeWhile fun g => g = 0).length

/-- The first longest run of at least two zero groups, as `(start, end)`. -/
def longestZeroRun (gs : List Nat) : Option (Nat × Nat) :=
  (List.range gs.length).foldl
    (fun best i =>
      let l := zeroRun gs i
      let cur := match best with
        | some (s, e) => e - s
        | none => 0
      if 2 ≤ l ∧ cur < l then some (i, i + l) else best)
    none

/-- Groups in lower-case hexadecimal without leading zeros, separated by colons. -/
def hexGroups (gs : List Nat) : String :=
  ":".intercalate (gs.map fun g => String.mk (Nat.toDigits 16 g))

/-- Textual form of a 16-byte address that is not IPv4-mapped. -/
def string6 (ip : List Byte) : String :=
  let gs := groups16 ip
  match longestZeroRun gs with
  | some (s, e) => hexGroups (gs.take s) ++ "::" ++ hexGroups (gs.drop e)
  | none => hexGroups gs

/-- Go `net.IP(b).String()`: `"<nil>"` for the empty slice, dotted decimal for four
bytes and for IPv4-mapped sixteen bytes, the colon-hexadecimal form for other
sixteen-byte values, and `"?"` followed by the hexadecimal bytes for any other
length. -/
def ipString (ip : List Byte) : String :=
  match ip with
  | [] => "<nil>"
  | [a, b, c, d] => dotted a b c d
  | [b0, b1, b2, b3, b4, b5, b6, b7, b8, b9, b10, b11, b12, b13, b14, b15] =>
      if b0.val = 0 ∧ b1.val = 0 ∧ b2.val = 0 ∧ b3.val = 0 ∧ b4.val = 0 ∧ b5.val = 0
          ∧ b6.val = 0 ∧ b7.val = 0 ∧ b8.val = 0 ∧ b9.val = 0
          ∧ b10.val = 255 ∧ b11.val = 255 then
        dotted b12 b13 b14 b15
      else
        string6 [b0, b1, b2, b3, b4, b5, b6, b7, b8, b9, b10, b11, b12, b13, b14, b15]
  | _ => "?" ++ hexString ip

/-! ## The decoder -/

/-- The function `decodeHEPv1` of the source. -/
def decodeHEPv1 (data : List Byte) : Except Failure HEPPacket :=
  if data.length < 21 then .error .ErrPacketTooShort
  else do
    let protocol ← index data 1
    let srcPort ← slice data 2 4 >>= Uint16
    let dstPort ← slice data 4 6 >>= Uint16
    let srcIP ← slice data 6 10
    let dstIP ← slice data 10 14
    let timestamp ← slice data 14 18 >>= Uint32
    let nodeID ← slice data 18 22 >>= Uint32
    let payload ← sliceFrom data 22
    pure { Version := HEPv1, Protocol := protocol.val, SrcIP := ipString srcIP,
           DstIP := ipString dstIP, SrcPort := srcPort, DstPort := dstPort,
           Timestamp := timestamp, ProtoType := 0, NodeID := nodeID, NodeName := "",
           Payload := payload, CID := [], Vlan := 0 }

/-- The function `decodeHEPv2` of the source. The header field `Family` is read and
not used afterwards. -/
def decodeHEPv2 (data : List Byte) : Except Failure HEPPacket :=
  if data.length < 31 then .error .ErrPacketTooShort
  else do
    let _family ← index data 1
    let protocol ← index data 2
    let srcPort ← slice data 3 5 >>= Uint16
    let dstPort ← slice data 5 7 >>= Uint16
    let srcIP ← slice data 7 11
    let dstIP ← slice data 11 15
    let timestamp ← slice data 15 19 >>= Uint32
    let id ← slice data 19 23 >>= Uint32
    let type ← index data 23
    let payload ← sliceFrom data 24
    pure { Version := HEPv2, Protocol := protocol.val, SrcIP := ipString srcIP,
           DstIP := ipString dstIP, SrcPort := srcPort, DstPort := dstPort,
           Timestamp := timestamp, ProtoType := type.val, NodeID := id, NodeName := "",
           Payload := payload, CID := [], Vlan := 0 }

/-- The `switch chunk.ChunkType` statement in the loop of `decodeHEPv3`. Chunk types
without a case (among them `TypeIPProtocolID`, `TypeKeepAliveTimer`, `TypeAuthKey`)
leave the packet as it is. -/
def chunkSwitch (packet : HEPPacket) (chunk : hepChunk) : Except Failure HEPPacket :=
  if chunk.ChunkType = TypeIPProtocolFamily then do
    let b ← index chunk.Data 0
    pure { packet with Protocol := b.val }
  else if chunk.ChunkType = TypeIPSourceIP then
    pure { packet with SrcIP := ipString chunk.Data }
  else if chunk.ChunkType = TypeIPDestinationIP then
    pure { packet with DstIP := ipString chunk.Data }
  else if chunk.ChunkType = TypeIPSourcePort then do
    let v ← Uint16 chunk.Data
    pure { packet with SrcPort := v }
  else if chunk.ChunkType = TypeIPDestinationPort then do
    let v ← Uint16 chunk.Data
    pure { packet with DstPort := v }
  else if chunk.ChunkType = TypeTimestamp then do
    let v ← Uint64 chunk.Data
    pure { packet with Timestamp := v }
  else if chunk.ChunkType = TypeProtocolType then do
    let b ← index chunk.Data 0
    pure { packet with ProtoType := b.val }
  else if chunk.ChunkType = TypeCaptureAgentID then do
    let v ← Uint32 chunk.Data
    pure { packet with NodeID := v }
  else if chunk.ChunkType = TypePayload then
    pure { packet with Payload := chunk.Data }
  else if chunk.ChunkType = TypeCorrelationID then
    pure { packet with CID := chunk.Data }
  else if chunk.ChunkType = TypeVLAN then do
    let v ← Uint16 chunk.Data
    pure { packet with Vlan := v }
  else
    pure packet

/-- The loop `for cursor < len(data) { ... }` of `decodeHEPv3`, one iteration per
unit of fuel. -/
def decodeHEPv3Loop : Nat → List Byte → Nat → HEPPacket → Except Failure HEPPacket
  | 0, data, cursor, packet =>
      if cursor < data.length then .error .fuelExhausted else .ok packet
  | fuel + 1, data, cursor, packet =>
      if cursor < data.length then
        if cursor + 6 > data.length then .error .ErrInvalidChunk
        else do
          let vendorID ← slice data cursor (cursor + 2) >>= Uint16
          let chunkType ← slice data (cursor + 2) (cursor + 4) >>= Uint16
          let length ← slice data (cursor + 4) (cursor + 6) >>= Uint16
          let cursor := cursor + 6
          let dataLen := subUint16 length 6
          if cursor + dataLen > data.length then .error .ErrInvalidChunk
          else do
            let chunkData ← slice data cursor (cursor + dataLen)
            let chunk : hepChunk :=
              { VendorID := vendorID, ChunkType := chunkType, Length := length,
                Data := chunkData }
            let cursor := cursor + dataLen
            let packet ← chunkSwitch packet chunk
            decodeHEPv3Loop fuel data cursor packet
      else .ok packet

/-- The function `decodeHEPv3` of the source. -/
def decodeHEPv3 (data : List Byte) : Except Failure HEPPacket :=
  if data.length < 6 then .error .ErrPacketTooShort
  else do
    let version ← index data 0
    let packet : HEPPacket := { HEPPacket.zero with Version := version.val }
    let length ← slice data 4 6 >>= Uint16
    if length > data.length then .error .ErrPacketTooShort
    else decodeHEPv3Loop data.length data 6 packet

/-- The function `DecodeHEP` of the source. -/
def DecodeHEP (data : List Byte) : Except Failure HEPPacket :=
  if data.length < 4 then .error .ErrPacketTooShort
  else do
    let version ← index data 0
    if version.val = HEPv3 then decodeHEPv3 data
    else if version.val = HEPv2 then decodeHEPv2 data
    else if version.val = HEPv1 then decodeHEPv1 data
    else .error .ErrInvalidVersion

/-! ## Vocabulary of the layout statements

The tables of the format description speak of "the byte at offset `i`", "the bytes
`[lo, hi)`", "big-endian" and "dotted-quad"; these are the corresponding functions. -/

/-- The byte at offset `i`, as a number. -/
def byteAt (B : List Byte) (i : Nat) : Nat := (B.getD i 0).val

/-- The bytes at offsets `lo ≤ · < hi`. -/
def sub (B : List Byte) (lo hi : Nat) : List Byte := (B.drop lo).take (hi - lo)

/-- Big-endian value of a byte sequence. -/
def bigEndian (bs : List Byte) : Nat := bs.foldl (fun acc b => acc * 256 + b.val) 0

/-- Decimal octets separated by dots. -/
def dottedQuad (bs : List Byte) : String := ".".intercalate (bs.map fun b => Nat.repr b.val)

/-- The packet that the HEP v1 layout table assigns to a buffer. -/
def v1Layout (B : List Byte) : HEPPacket :=
  { Version := 1, Protocol := byteAt B 1,
    SrcIP := dottedQuad (sub B 6 10), DstIP := dottedQuad (sub B 10 14),
    SrcPort := bigEndian (sub B 2 4), DstPort := bigEndian (sub B 4 6),
    Timestamp := bigEndian (sub B 14 18), ProtoType := 0,
    NodeID := bigEndian (sub B 18 22), NodeName := "",
    Payload := B.drop 22, CID := [], Vlan := 0 }

/-- The packet that the HEP v2 layout (the v1 fields moved up by one byte, the
protocol type at offset 23, the payload from offset 24) assigns to a buffer. -/
def v2Layout (B : List Byte) : HEPPacket :=
  { Version := 2, Protocol := byteAt B 2,
    SrcIP := dottedQuad (sub B 7 11), DstIP := dottedQuad (sub B 11 15),
    SrcPort := bigEndian (sub B 3 5), DstPort := bigEndian (sub B 5 7),
    Timestamp := bigEndian (sub B 15 19), ProtoType := byteAt B 23,
    NodeID := bigEndian (sub B 19 23), NodeName := "",
    Payload := B.drop 24, CID := [], Vlan := 0 }

/-- The buffer built by `TestHEPv1Decode`, with 1700000000 as the capture time. -/
def testPacketV1 : List Byte :=
  [1, 17, 0x13, 0xC4, 0x13, 0xC4, 192, 168, 1, 1, 192, 168, 1, 2,
   0x65, 0x53, 0xF1, 0x00, 0x00, 0x00, 0x07, 0xD1, 84, 69, 83, 84, 0, 0, 0, 0]

/-- The buffer built by `TestHEPv2Decode`, with 1700000000 as the capture time. -/
def testPacketV2 : List Byte :=
  [2, 2, 17, 0x13, 0xC4, 0x13, 0xC4, 192, 168, 1, 1, 192, 168, 1, 2,
   0x65, 0x53, 0xF1, 0x00, 0x00, 0x00, 0x07, 0xD1, 1, 84, 69, 83, 84, 0, 0, 0, 0, 0, 0, 0]

/-- A 21-byte buffer with version byte 1: the first 21 bytes of `testPacketV1`. -/
def shortPacketV1 : List Byte :=
  [1, 17, 0x13, 0xC4, 0x13, 0xC4, 192, 168, 1, 1, 192, 168, 1, 2,
   0x65, 0x53, 0xF1, 0x00, 0x00, 0x00, 0x07]

/-- A 25-byte buffer with version byte 2: the first 25 bytes of `testPacketV2`. -/
def shortPacketV2 : List Byte :=
  [2, 2, 17, 0x13, 0xC4, 0x13, 0xC4, 192, 168, 1, 1, 192, 168, 1, 2,
   0x65, 0x53, 0xF1, 0x00, 0x00, 0x00, 0x07, 0xD1, 1, 84]

/-- A chunk as the format description gives it: vendor id, chunk type and chunk
payload; the length field is derived from the payload. -/
structure Chunk where
  vendor : Nat
  ctype : Nat
  data : List Byte
  deriving DecidableEq, Repr

/-- The two bytes of a 16-bit number, most significant first. -/
def be16 (n : Nat) : List Byte :=
  [⟨n / 256 % 256, Nat.mod_lt _ (by decide)⟩, ⟨n % 256, Nat.mod_lt _ (by decide)⟩]

/-- Wire form of one chunk: vendor id (2 bytes), chunk type (2 bytes), chunk length
including this 6-byte header (2 bytes), chunk payload. -/
def encodeChunk (c : Chunk) : List Byte :=
  be16 c.vendor ++ (be16 c.ctype ++ (be16 (6 + c.data.length) ++ c.data))

/-- Wire form of a sequence of chunks. -/
def encodeChunks : List Chunk → List Byte
  | [] => []
  | c :: cs => encodeChunk c ++ encodeChunks cs

/-- A buffer made of four leading bytes, the total length at bytes 4-5 (big-endian,
including the 6-byte header) and a sequence of chunks. -/
def encodeHEPv3 (b0 b1 b2 b3 : Byte) (cs : List Chunk) : List Byte :=
  [b0, b1, b2, b3] ++ (be16 (6 + (encodeChunks cs).length) ++ encodeChunks cs)

/-- The chunk record that the loop of `decodeHEPv3` builds when it reads the wire form
of `c`. -/
def Chunk.toHep (c : Chunk) : hepChunk :=
  { VendorID := c.vendor, ChunkType := c.ctype, Length := 6 + c.data.length, Data := c.data }

/-- The three header fields of the chunk fit in 16 bits each. -/
@[reducible] def Chunk.framed (c : Chunk) : Prop :=
  c.vendor < 65536 ∧ c.ctype < 65536 ∧ 6 + c.data.length < 65536

/-- The `switch` of `decodeHEPv3` applied to a sequence of chunks, in order. -/
def applyChunks (p : HEPPacket) : List Chunk → Except Failure HEPPacket
  | [] => .ok p
  | c :: cs =>
      match chunkSwitch p c.toHep with
      | .ok p' => applyChunks p' cs
      | .error e => .error e

/-- Number of data bytes that the `switch` of `decodeHEPv3` reads from a chunk of type
`t` through an index expression or a fixed-width big-endian read. -/
def minDataLen (t : Nat) : Nat :=
  if t = TypeIPProtocolFamily ∨ t = TypeProtocolType then 1
  else if t = TypeIPSourcePort ∨ t = TypeIPDestinationPort ∨ t = TypeVLAN then 2
  else if t = TypeCaptureAgentID then 4
  else if t = TypeTimestamp then 8
  else 0

/-- A chunk that fits its 16-bit header fields and carries at least the data bytes that
the decoder reads for its type. -/
@[reducible] def Chunk.wellFormed (c : Chunk) : Prop :=
  c.framed ∧ minDataLen c.ctype ≤ c.data.length

/-- What the `switch` of `decodeHEPv3` does to the packet when the chunk carries enough
data bytes (`chunkSwitch_eq_chunkEffect`). -/
def chunkEffect (p : HEPPacket) (c : Chunk) : HEPPacket :=
  if c.ctype = TypeIPProtocolFamily then { p with Protocol := byteAt c.data 0 }
  else if c.ctype = TypeIPSourceIP then { p with SrcIP := ipString c.data }
  else if c.ctype = TypeIPDestinationIP then { p with DstIP := ipString c.data }
  else if c.ctype = TypeIPSourcePort then { p with SrcPort := bigEndian (c.data.take 2) }
  else if c.ctype = TypeIPDestinationPort then { p with DstPort := bigEndian (c.data.take 2) }
  else if c.ctype = TypeTimestamp then { p with Timestamp := bigEndian (c.data.take 8) }
  else if c.ctype = TypeProtocolType then { p with ProtoType := byteAt c.data 0 }
  else if c.ctype = TypeCaptureAgentID then { p with NodeID := bigEndian (c.data.take 4) }
  else if c.ctype = TypePayload then { p with Payload := c.data }
  else if c.ctype = TypeCorrelationID then { p with CID := c.data }
  else if c.ctype = TypeVLAN then { p with Vlan := bigEndian (c.data.take 2) }
  else p

/-- The last chunk of type `t` in the sequence, if there is one. -/
def lastChunk (t : Nat) : List Chunk → Option Chunk
  | [] => none
  | c :: cs =>
      match lastChunk t cs with
      | some c' => some c'
      | none => if c.ctype = t then some c else none

/-- The first chunk of type `t` in the sequence, if there is one. -/
def chunkOf (t : Nat) (cs : List Chunk) : Option Chunk :=
  cs.find? fun c => c.ctype = t

/-- Number of chunks of type `t` in the sequence. -/
def countType (t : Nat) (cs : List Chunk) : Nat :=
  cs.countP fun c => c.ctype = t

/-- The value `f` of the data of the chunk of type `t`, and `z` when the sequence has no
chunk of that type. -/
def valueOf {α : Type} (t : Nat) (cs : List Chunk) (f : List Byte → α) (z : α) : α :=
  match chunkOf t cs with
  | some c => f c.data
  | none => z

/-- The data sizes that the codec table gives for the chunk types read by the decoder:
one byte for the IP family and the protocol type, four or sixteen bytes for an address,
two bytes for a port or the VLAN, eight bytes for the timestamp, four bytes for the
capture agent id. -/
@[reducible] def Chunk.tableSized (c : Chunk) : Prop :=
  (c.ctype = TypeIPProtocolFamily → c.data.length = 1)
  ∧ (c.ctype = TypeIPSourceIP ∨ c.ctype = TypeIPDestinationIP →
      c.data.length = 4 ∨ c.data.length = 16)
  ∧ (c.ctype = TypeIPSourcePort ∨ c.ctype = TypeIPDestinationPort ∨ c.ctype = TypeVLAN →
      c.data.length = 2)
  ∧ (c.ctype = TypeTimestamp → c.data.length = 8)
  ∧ (c.ctype = TypeProtocolType → c.data.length = 1)
  ∧ (c.ctype = TypeCaptureAgentID → c.data.length = 4)

/-- The data sizes that the codec table gives for the ten chunk types of `singleTypes`:
four or sixteen bytes for an address, two bytes for a port or the VLAN, eight bytes for
the timestamp, one byte for the protocol type, four bytes for the capture agent id; the
payload and the correlation id have any size. Nothing is said about a chunk of another
type. -/
@[reducible] def Chunk.listedSized (c : Chunk) : Prop :=
  (c.ctype = TypeIPSourceIP ∨ c.ctype = TypeIPDestinationIP →
      c.data.length = 4 ∨ c.data.length = 16)
  ∧ (c.ctype = TypeIPSourcePort ∨ c.ctype = TypeIPDestinationPort ∨ c.ctype = TypeVLAN →
      c.data.length = 2)
  ∧ (c.ctype = TypeTimestamp → c.data.length = 8)
  ∧ (c.ctype = TypeProtocolType → c.data.length = 1)
  ∧ (c.ctype = TypeCaptureAgentID → c.data.length = 4)

/-- The chunk types of which the field statement allows at most one occurrence. -/
def singleTypes : List Nat :=
  [TypeIPSourceIP, TypeIPDestinationIP, TypeIPSourcePort, TypeIPDestinationPort,
   TypeTimestamp, TypeProtocolType, TypeCaptureAgentID, TypePayload, TypeCorrelationID,
   TypeVLAN]

/-- Rendering of an address chunk: dotted-quad for four bytes, and the rendering of Go
`net.IP.String` for any other length. -/
def addressText (d : List Byte) : String :=
  if d.length = 4 then dottedQuad d else ipString d

/-- The chunk list of `createHEPv3TestPacket` (hep_test.go). -/
def testChunksV3 : List Chunk :=
  [ ⟨0, TypeIPProtocolFamily, [0x02]⟩,
    ⟨0, TypeIPProtocolID, [17]⟩,
    ⟨0, TypeIPSourceIP, [192, 168, 1, 1]⟩,
    ⟨0, TypeIPDestinationIP, [192, 168, 1, 2]⟩,
    ⟨0, TypeIPSourcePort, [0x13, 0xC4]⟩,
    ⟨0, TypeIPDestinationPort, [0x13, 0xC4]⟩,
    ⟨0, TypeTimestamp, [0, 0, 0, 0, 0, 0, 0, 0]⟩,
    ⟨0, TypeProtocolType, [0x01]⟩,
    ⟨0, TypeCaptureAgentID, [0x00, 0x00, 0x07, 0xD1]⟩,
    ⟨0, TypePayload, [84, 69, 83, 84]⟩ ]

/-- The buffer that `createHEPv3TestPacket` (hep_test.go) actually builds from
`testChunksV3`: in every chunk it writes the chunk type at offset 0, the chunk length at
offset 2, leaves the two bytes at offset 4 zero, and copies the data to offset 6. -/
def createHEPv3TestPacket : List Byte :=
  let body := testChunksV3.flatMap fun c =>
    be16 c.ctype ++ (be16 (6 + c.data.length) ++ ([0, 0] ++ c.data))
  [3, 0, 0, 0] ++ (be16 (6 + body.length) ++ body)

/-- A buffer with the magic "HEP3" in bytes 0-3, its own length 16 in bytes 4-5 and
one payload chunk carrying "TEST". -/
def hep3MagicPacket : List Byte :=
  [0x48, 0x45, 0x50, 0x33, 0, 16, 0, 0, 0, 15, 0, 10, 84, 69, 83, 84]

/-- A 16-byte buffer with version byte 3 whose total-length field holds 26. -/
def truncatedPacketV3 : List Byte :=
  [3, 0, 0, 0, 0, 26, 0, 0, 0, 15, 0, 10, 84, 69, 83, 84]

/-- A version-3 buffer of 65542 bytes: the 6-byte header (declared total length 6), one
chunk header with vendor 0, type `TypePayload` and length field 0, and 65530 zero
bytes. -/
def wrapPacket : List Byte :=
  [3, 0, 0, 0, 0, 6] ++ ([0, 0, 0, 15, 0, 0] ++ List.replicate 65530 0)

/-- A version-3 buffer given by its bytes 1-3, the number stored in the total-length
field at bytes 4-5, and the bytes that follow the 6-byte header. -/
def v3Buffer (b1 b2 b3 : Byte) (declared : Nat) (body : List Byte) : List Byte :=
  [3, b1, b2, b3] ++ (be16 declared ++ body)

/-- The bytes `tail` that remain at a chunk boundary do not hold a chunk: there are
fewer than six of them, or the length field of the chunk header (bytes 4-5 of `tail`)
is below 6, or it is larger than the number of remaining bytes. -/
@[reducible] def malformedChunk (tail : List Byte) : Prop :=
  (0 < tail.length ∧ tail.length < 6)
  ∨ (6 ≤ tail.length
      ∧ (bigEndian (sub tail 4 6) < 6 ∨ tail.length < bigEndian (sub tail 4 6)))

/-- The chunk types listed in the codec table of the format description. -/
def codecTableTypes : List Nat :=
  [TypeIPProtocolFamily, TypeIPProtocolID, TypeIPSourceIP, TypeIPDestinationIP,
   TypeIPSourcePort, TypeIPDestinationPort, TypeTimestamp, TypeProtocolType,
   TypeCaptureAgentID, TypeKeepAliveTimer, TypeAuthKey, TypePayload, TypeCorrelationID,
   TypeVLAN]

/-- The chunk types for which the `switch` of `decodeHEPv3` has a case. -/
def switchTypes : List Nat :=
  [TypeIPProtocolFamily, TypeIPSourceIP, TypeIPDestinationIP, TypeIPSourcePort,
   TypeIPDestinationPort, TypeTimestamp, TypeProtocolType, TypeCaptureAgentID,
   TypePayload, TypeCorrelationID, TypeVLAN]

/-- The value `f` of the data of the last chunk of type `t`, and `z` when the sequence
has no chunk of that type. -/
def lastValue {α : Type} (t : Nat) (cs : List Chunk) (f : List Byte → α) (z : α) : α :=
  match lastChunk t cs with
  | some c => f c.data
  | none => z

/-- Last-writer-wins reading of a chunk sequence: every field that the `switch` of
`decodeHEPv3` assigns is taken from the last chunk of the type of its case, and is zero
or empty when there is no such chunk. -/
def lastWriterPacket (cs : List Chunk) : HEPPacket :=
  { Version := 3,
    Protocol := lastValue TypeIPProtocolFamily cs (fun d => byteAt d 0) 0,
    SrcIP := lastValue TypeIPSourceIP cs ipString "",
    DstIP := lastValue TypeIPDestinationIP cs ipString "",
    SrcPort := lastValue TypeIPSourcePort cs (fun d => bigEndian (d.take 2)) 0,
    DstPort := lastValue TypeIPDestinationPort cs (fun d => bigEndian (d.take 2)) 0,
    Timestamp := lastValue TypeTimestamp cs (fun d => bigEndian (d.take 8)) 0,
    ProtoType := lastValue TypeProtocolType cs (fun d => byteAt d 0) 0,
    NodeID := lastValue TypeCaptureAgentID cs (fun d => bigEndian (d.take 4)) 0,
    NodeName := "",
    Payload := lastValue TypePayload cs (fun d => d) [],
    CID := lastValue TypeCorrelationID cs (fun d => d) [],
    Vlan := lastValue TypeVLAN cs (fun d => bigEndian (d.take 2)) 0 }

/-- The chunk sequence without the chunks of type `t` that are followed by a later
chunk of type `t`. -/
def removeEarlier (t : Nat) : List Chunk → List Chunk
  | [] => []
  | c :: cs =>
      if c.ctype = t ∧ (lastChunk t cs).isSome then removeEarlier t cs
      else c :: removeEarlier t cs

/-- Two IP-protocol chunks (type 0x0002), carrying 6 and then 17. -/
def duplicateProtocolChunks : List Chunk :=
  [⟨0, TypeIPProtocolID, [6]⟩, ⟨0, TypeIPProtocolID, [17]⟩]

/-- A 12-byte version-3 buffer whose only chunk is an IP-family chunk (type 0x0001) of
length exactly 6, that is, with empty data. -/
def emptyFamilyPacket : List Byte :=
  [3, 0, 0, 0, 0, 12, 0, 0, 0, 1, 0, 6]

/-- The chunk list of `createHEPv3TestPacket` (hep_test.go) with the data of its
IP-family chunk (type 0x0001) left empty. -/
def emptyFamilyChunksV3 : List Chunk :=
  [ ⟨0, TypeIPProtocolFamily, []⟩,
    ⟨0, TypeIPProtocolID, [17]⟩,
    ⟨0, TypeIPSourceIP, [192, 168, 1, 1]⟩,
    ⟨0, TypeIPDestinationIP, [192, 168, 1, 2]⟩,
    ⟨0, TypeIPSourcePort, [0x13, 0xC4]⟩,
    ⟨0, TypeIPDestinationPort, [0x13, 0xC4]⟩,
    ⟨0, TypeTimestamp, [0, 0, 0, 0, 0, 0, 0, 0]⟩,
    ⟨0, TypeProtocolType, [0x01]⟩,
    ⟨0, TypeCaptureAgentID, [0x00, 0x00, 0x07, 0xD1]⟩,
    ⟨0, TypePayload, [84, 69, 83, 84]⟩ ]

/-! ## Configuration (internal/config/config.go) -/

/-- Go `time.Second`, as a `time.Duration` in nanoseconds. -/
def Second : Int := 1000000000

/-- The record `ServerConfig` of the source; durations are in nanoseconds. -/
structure ServerConfig where
  Host : String
  Port : Int
  Protocol : String
  MaxPacketSize : Int
  ReadTimeout : Int
  WriteTimeout : Int
  Workers : Int
  deriving DecidableEq, Repr

/-- The record `ParquetConfig` of the source. -/
structure ParquetConfig where
  FilePath : String
  deriving DecidableEq, Repr

/-- The record `ClickHouseConfig` of the source (package config). -/
structure ClickHouseConfig where
  Host : String
  Port : Int
  Database : String
  Table : String
  Username : String
  Password : String
  Debug : Bool
  deriving DecidableEq, Repr

/-- The record `ElasticConfig` of the source (package config). -/
structure ElasticConfig where
  URLs : List String
  IndexName : String
  Username : String
  Password : String
  Debug : Bool
  deriving DecidableEq, Repr

/-- The record `WritersConfig` of the source. The field `Type` is called `Type_`; a nil
pointer to a sub-config is `none`. -/
structure WritersConfig where
  Type_ : String
  BatchSize : Int
  FlushInterval : Int
  ClickHouse : Option ClickHouseConfig
  Elastic : Option ElasticConfig
  Parquet : Option ParquetConfig
  deriving DecidableEq, Repr

/-- The record `APIConfig` of the source. -/
structure APIConfig where
  Host : String
  Port : Int
  EnablePprof : Bool
  AuthToken : String
  CorsOrigins : List String
  ReadTimeout : Int
  WriteTimeout : Int
  deriving DecidableEq, Repr

/-- The record `MetricsConfig` of the source. -/
structure MetricsConfig where
  Enable : Bool
  Host : String
  Port : Int
  Path : String
  deriving DecidableEq, Repr

/-- The record `Config` of the source. -/
structure Config where
  Server : ServerConfig
  Writers : WritersConfig
  API : APIConfig
  Metrics : MetricsConfig
  deriving DecidableEq, Repr

/-- The errors that `Validate` builds with `fmt.Errorf`: "invalid server port: %d",
"clickhouse config required", "elastic config required", "at least one writer
required", "unknown writer type: %s". -/
inductive ValidateError where
  | invalidServerPort (port : Int)
  | clickhouseConfigRequired
  | elasticConfigRequired
  | atLeastOneWriterRequired
  | unknownWriterType (type : String)
  deriving DecidableEq, Repr

/-- The method `(c *Config) Validate() error` of the source. The result is the
configuration as the call leaves it behind the pointer, and the returned error (`none`
for `nil`). -/
def Config.Validate (c : Config) : Config × Option ValidateError :=
  if c.Server.Port ≤ 0 ∨ c.Server.Port > 65535 then
    (c, some (.invalidServerPort c.Server.Port))
  else
    let c : Config :=
      if c.Server.Workers ≤ 0 then { c with Server := { c.Server with Workers := 1 } } else c
    let c : Config :=
      if c.Writers.BatchSize ≤ 0 then { c with Writers := { c.Writers with BatchSize := 1000 } }
      else c
    let c : Config :=
      if c.Writers.FlushInterval ≤ 0 then
        { c with Writers := { c.Writers with FlushInterval := Second } }
      else c
    if c.Writers.Type_ = "clickhouse" then
      if c.Writers.ClickHouse.isNone then (c, some .clickhouseConfigRequired) else (c, none)
    else if c.Writers.Type_ = "elastic" then
      if c.Writers.Elastic.isNone then (c, some .elasticConfigRequired) else (c, none)
    else if c.Writers.Type_ = "multi" then
      if c.Writers.ClickHouse.isNone ∧ c.Writers.Elastic.isNone then
        (c, some .atLeastOneWriterRequired)
      else (c, none)
    else (c, some (.unknownWriterType c.Writers.Type_))

/-- A configuration with server port 9060, writer type "clickhouse" and a ClickHouse
sub-config; workers, batch size and flush interval are not set. -/
def sampleConfig : Config :=
  { Server := { Host := "0.0.0.0", Port := 9060, Protocol := "both", MaxPacketSize := 65535,
                ReadTimeout := 0, WriteTimeout := 0, Workers := 0 },
    Writers := { Type_ := "clickhouse", BatchSize := 0, FlushInterval := 0,
                 ClickHouse := some { Host := "localhost", Port := 9000, Database := "hep",
                                      Table := "hep_packets", Username := "default",
                                      Password := "", Debug := false },
                 Elastic := none, Parquet := none },
    API := { Host := "0.0.0.0", Port := 8080, EnablePprof := false, AuthToken := "",
             CorsOrigins := [], ReadTimeout := 0, WriteTimeout := 0 },
    Metrics := { Enable := false, Host := "0.0.0.0", Port := 9090, Path := "/metrics" } }

/-- The configuration `sampleConfig` with writer type `t` and only a Parquet
sub-config. -/
def parquetOnlyConfig (t : String) : Config :=
  { sampleConfig with
    Writers := { sampleConfig.Writers with
                 Type_ := t, ClickHouse := none, Elastic := none,
                 Parquet := some { FilePath := "/var/lib/hepop/hep.parquet" } } }

/-- The configuration after the three default assignments of `Validate`. -/
def Config.withDefaults (c : Config) : Config :=
  { c with
    Server := { c.Server with Workers := if 0 < c.Server.Workers then c.Server.Workers else 1 },
    Writers := { c.Writers with
                 BatchSize := if 0 < c.Writers.BatchSize then c.Writers.BatchSize else 1000,
                 FlushInterval :=
                   if 0 < c.Writers.FlushInterval then c.Writers.FlushInterval else Second } }

/-! ## Writer statistics and batching (internal/writer) -/

/-- Addition of two `uint64` values, which wraps around modulo `2^64`. -/
def addUint64 (a b : Nat) : Nat := (a + b) % 18446744073709551616

/-- The record `WriterStats` of the source. `LastError` is the message of the last
error (`none` for `nil`), `LastWrite` a point in time (0 for the zero time). -/
structure WriterStats where
  PacketsReceived : Nat
  PacketsWritten : Nat
  BytesWritten : Nat
  Errors : Nat
  LastError : Option String
  LastWrite : Nat
  deriving DecidableEq, Repr

/-- The Go zero value of `WriterStats`. -/
def WriterStats.zero : WriterStats :=
  { PacketsReceived := 0, PacketsWritten := 0, BytesWritten := 0, Errors := 0,
    LastError := none, LastWrite := 0 }

/-- The record `BaseWriter` of the source, without its mutex. -/
structure BaseWriter where
  stats : WriterStats
  deriving DecidableEq, Repr

/-- The method `(w *BaseWriter) updateStats(written, bytes, err)` of the source; `now`
is the value that `time.Now()` returns during the call. -/
def BaseWriter.updateStats (w : BaseWriter) (written : Bool) (bytes : Nat)
    (err : Option String) (now : Nat) : BaseWriter :=
  let stats := { w.stats with PacketsReceived := addUint64 w.stats.PacketsReceived 1 }
  let stats :=
    if written then
      { stats with PacketsWritten := addUint64 stats.PacketsWritten 1,
                   BytesWritten := addUint64 stats.BytesWritten bytes,
                   LastWrite := now }
    else stats
  let stats :=
    match err with
    | some e => { stats with Errors := addUint64 stats.Errors 1, LastError := some e }
    | none => stats
  { w with stats := stats }

/-- The arguments of one call of `updateStats`, with the time of the call. -/
structure StatsCall where
  written : Bool
  bytes : Nat
  err : Option String
  now : Nat
  deriving DecidableEq, Repr

/-- A sequence of `updateStats` calls, applied in order. -/
def BaseWriter.updateAll (w : BaseWriter) (calls : List StatsCall) : BaseWriter :=
  calls.foldl (fun w k => w.updateStats k.written k.bytes k.err k.now) w

/-- No addition of the call `k` on the statistics of `w` exceeds 64 bits. -/
@[reducible] def StatsCall.fits (w : BaseWriter) (k : StatsCall) : Prop :=
  w.stats.PacketsReceived + 1 < 18446744073709551616
  ∧ (k.written = true →
      w.stats.PacketsWritten + 1 < 18446744073709551616
      ∧ w.stats.BytesWritten + k.bytes < 18446744073709551616)
  ∧ (k.err.isSome = true → w.stats.Errors + 1 < 18446744073709551616)

/-- No addition in the sequence of calls, started on `w`, exceeds 64 bits. -/
def noOverflow (w : BaseWriter) : List StatsCall → Prop
  | [] => True
  | k :: ks => k.fits w ∧ noOverflow (w.updateStats k.written k.bytes k.err k.now) ks

/-- The call reports a successful write and an error at the same time. -/
@[reducible] def StatsCall.writtenWithError (k : StatsCall) : Prop :=
  k.written = true ∧ k.err.isSome = true

/-- The record `BatchWriter` of the source. The embedded `BaseWriter` keeps its name,
`doneClosed` says whether the channel `done` has been closed; the channel `flushChan`
carries no data and is represented by the flag that `Write` returns. -/
structure BatchWriter where
  BaseWriter : BaseWriter
  batchSize : Int
  buffer : List HEPPacket
  doneClosed : Bool
  deriving DecidableEq, Repr

/-- The function `NewBatchWriter` of the source, for `batchSize >= 0`. (For a negative
`batchSize` the source panics in `make([]*protocol.HEPPacket, 0, batchSize)`; no
statement below builds a writer with a negative size.) -/
def NewBatchWriter (batchSize : Int) : BatchWriter :=
  { BaseWriter := { stats := WriterStats.zero }, batchSize := batchSize, buffer := [],
    doneClosed := false }

/-- The method `(w *BatchWriter) Write(packet)` of the source up to its channel send:
the writer with the packet appended to the buffer, and `shouldFlush`, which says
whether `Write` goes on to send a signal on `flushChan`. -/
def BatchWriter.Write (w : BatchWriter) (packet : HEPPacket) : BatchWriter × Bool :=
  let w := { w with buffer := w.buffer ++ [packet] }
  let shouldFlush := decide ((w.buffer.length : Int) ≥ w.batchSize)
  (w, shouldFlush)

/-- The method `(w *BatchWriter) flush()` of the source: it empties the buffer and
passes the packets to nobody ("Specific writers should implement this logic"). -/
def BatchWriter.flush (w : BatchWriter) : BatchWriter :=
  if w.buffer.length = 0 then w
  else { w with buffer := [] }

/-- The method `(w *BatchWriter) Close()` of the source, called on a writer whose
channel `done` is still open. (A second call panics in `close(w.done)`.) -/
def BatchWriter.Close (w : BatchWriter) : BatchWriter :=
  BatchWriter.flush { w with doneClosed := true }

/-- The record `ClickHouseWriter` of the source, a sink built on an embedded
`*BatchWriter`. The connection is not part of the state; `batches` is the log of the
non-empty packet slices that `ClickHouseWriter.flush` has taken out of the buffer, that
is, of the batches handed to the flush routine of this sink. -/
structure ClickHouseWriter where
  BatchWriter : BatchWriter
  tableName : String
  batches : List (List HEPPacket)
  deriving DecidableEq, Repr

/-- The method `(w *ClickHouseWriter) flush()` of the source, as far as the buffer is
concerned: it copies the buffer to `packets`, empties the buffer, and returns at once
if `packets` is empty; otherwise it goes on to insert `packets` through the
connection. -/
def ClickHouseWriter.flush (w : ClickHouseWriter) : ClickHouseWriter :=
  let packets := w.BatchWriter.buffer
  let w := { w with BatchWriter := { w.BatchWriter with buffer := [] } }
  if packets.length = 0 then w
  else { w with batches := w.batches ++ [packets] }

/-- What happens to a sink, one event at a time. -/
inductive SinkEvent where
  | Write (packet : HEPPacket)
  | Tick
  | Close
  deriving DecidableEq, Repr

/-- One event on a `ClickHouseWriter`, with every flush trigger handled before the next
event. `Write` and `Close` are the methods promoted from the embedded `*BatchWriter`.
A signal sent by `Write` on `flushChan`, and a tick of the timer, are received by
`(w *BatchWriter) flushLoop`, whose call `w.flush()` has the receiver `*BatchWriter`
and therefore runs `BatchWriter.flush`; the same holds for the call `w.flush()` in
`(w *BatchWriter) Close`. Once `done` is closed the loop has returned and no signal is
received any more. -/
def ClickHouseWriter.handle (w : ClickHouseWriter) : SinkEvent → ClickHouseWriter
  | .Write packet =>
      let r := w.BatchWriter.Write packet
      if r.2 = true ∧ r.1.doneClosed = false then { w with BatchWriter := r.1.flush }
      else { w with BatchWriter := r.1 }
  | .Tick =>
      if w.BatchWriter.doneClosed = false then { w with BatchWriter := w.BatchWriter.flush }
      else w
  | .Close => { w with BatchWriter := w.BatchWriter.Close }

/-- A sequence of events on a `ClickHouseWriter`, in order. -/
def ClickHouseWriter.run (w : ClickHouseWriter) (events : List SinkEvent) :
    ClickHouseWriter :=
  events.foldl ClickHouseWriter.handle w

/-- A `ClickHouseWriter` as `NewClickHouseWriter` returns it for the given batch
size. -/
def newSink (batchSize : Int) : ClickHouseWriter :=
  { BatchWriter := NewBatchWriter batchSize, tableName := "hep_packets", batches := [] }

/-- Seven distinct packets. -/
def sevenPackets : List HEPPacket :=
  (List.range 7).map fun i => { HEPPacket.zero with Version := 3, NodeID := i + 1 }

/-! ## The chunk loop, one iteration at a time -/

/-- One iteration of the loop of `decodeHEPv3` (the statements between `for cursor <
len(data) {` and the closing brace): the cursor and the packet at the end of the
iteration, or the error that the iteration returns. -/
def decodeHEPv3Step (data : List Byte) (cursor : Nat) (packet : HEPPacket) :
    Except Failure (Nat × HEPPacket) :=
  if cursor + 6 > data.length then .error .ErrInvalidChunk
  else do
    let vendorID ← slice data cursor (cursor + 2) >>= Uint16
    let chunkType ← slice data (cursor + 2) (cursor + 4) >>= Uint16
    let length ← slice data (cursor + 4) (cursor + 6) >>= Uint16
    let cursor := cursor + 6
    let dataLen := subUint16 length 6
    if cursor + dataLen > data.length then .error .ErrInvalidChunk
    else do
      let chunkData ← slice data cursor (cursor + dataLen)
      let chunk : hepChunk :=
        { VendorID := vendorID, ChunkType := chunkType, Length := length,
          Data := chunkData }
      let cursor := cursor + dataLen
      let packet ← chunkSwitch packet chunk
      pure (cursor, packet)

/-- The cursor and the packet after `k` iterations of the loop of `decodeHEPv3` that
all ran to their end, starting at `cursor`; `none` if the loop does not make `k` such
iterations. -/
def decodeHEPv3Iterate : Nat → List Byte → Nat → HEPPacket → Option (Nat × HEPPacket)
  | 0, _, cursor, packet => some (cursor, packet)
  | k + 1, data, cursor, packet =>
      if cursor < data.length then
        match decodeHEPv3Step data cursor packet with
        | .ok r => decodeHEPv3Iterate k data r.1 r.2
        | .error _ => none
      else none

/-! ## Write after Close -/

/-- How a call of `(w *BatchWriter) Write` ends: it returns its error result (`none` for
`nil`), or its send on `flushChan` never completes. -/
inductive WriteOutcome where
  | returned (err : Option String)
  | blocked
  deriving DecidableEq, Repr

/-- The method `(w *BatchWriter) Write(packet)` of the source as a whole. The writer is
the one that `Write` leaves behind (the packet appended). If `shouldFlush` holds, `Write`
sends on the unbuffered channel `flushChan`; `loopReceives` says whether `flushLoop`
receives that signal. The only `return` statement of `Write` is `return nil`. -/
def BatchWriter.WriteCall (w : BatchWriter) (packet : HEPPacket) (loopReceives : Bool) :
    BatchWriter × WriteOutcome :=
  let r := w.Write packet
  if r.2 = true then
    if loopReceives = true then (r.1, .returned none) else (r.1, .blocked)
  else (r.1, .returned none)

/-- A version-3 packet with node id 2001 and the payload "TEST". -/
def samplePacket : HEPPacket :=
  { Version := 3, Protocol := 17, SrcIP := "192.168.1.1", DstIP := "192.168.1.2",
    SrcPort := 5060, DstPort := 5060, Timestamp := 1700000000, ProtoType := 1,
    NodeID := 2001, NodeName := "", Payload := [84, 69, 83, 84], CID := [], Vlan := 0 }

/-! ## Storage of the payload -/

/-- Where the bytes of the field `Payload` of a decoded packet live. A Go `[]byte` is a
view of a backing array: `buffer lo` is the slice `data[lo:]` of the argument of
`DecodeHEP`, which shares the backing array of that argument; `copy bytes` is a slice
made with `make` and filled with `copy` (or the nil slice, for no bytes), which shares
nothing with the argument. -/
inductive PayloadStorage where
  | buffer (lo : Nat)
  | copy (bytes : List Byte)
  deriving DecidableEq, Repr

/-- The bytes that a payload stored as `s` holds at a moment when the backing array of
the decoded buffer holds `memory`. -/
def PayloadStorage.read (s : PayloadStorage) (memory : List Byte) : List Byte :=
  match s with
  | .buffer lo => memory.drop lo
  | .copy bytes => bytes

/-- The storage of the field `Payload` of the packet that `DecodeHEP` returns.
`decodeHEPv3` sets the field with `make([]byte, len(chunk.Data))` and `copy`,
`decodeHEPv2` with `Payload: data[24:]` and `decodeHEPv1` with `Payload: data[22:]`. -/
def payloadStorage (data : List Byte) : Except Failure PayloadStorage := do
  let packet ← DecodeHEP data
  let version ← index data 0
  if version.val = HEPv3 then pure (.copy packet.Payload)
  else if version.val = HEPv2 then pure (.buffer 24)
  else pure (.buffer 22)

/-! ## Construction of the writer (cmd/hepop/main.go) -/

/-- The record `ClickHouseConfig` of the source (package writer), the argument of
`NewClickHouseWriter`. -/
structure WriterClickHouseConfig where
  Host : String
  Port : Int
  Database : String
  Table : String
  Username : String
  Password : String
  BatchSize : Int
  deriving DecidableEq, Repr

/-- The record `ElasticConfig` of the source (package writer), the argument of
`NewElasticWriter`. -/
structure WriterElasticConfig where
  URLs : List String
  Username : String
  Password : String
  IndexName : String
  BatchSize : Int
  deriving DecidableEq, Repr

/-- The record `ElasticWriter` of the source, without its client. -/
structure ElasticWriter where
  BatchWriter : BatchWriter
  indexName : String
  deriving DecidableEq, Repr

/-- The function `NewClickHouseWriter` of the source. `openErr` is the error that
`clickhouse.Open` returns (`none` for `nil`); the connection is not part of the state. -/
def NewClickHouseWriter (config : WriterClickHouseConfig) (openErr : Option String) :
    Except String ClickHouseWriter :=
  match openErr with
  | some err => .error err
  | none =>
    .ok { BatchWriter := NewBatchWriter config.BatchSize, tableName := config.Table,
          batches := [] }

/-- The function `NewElasticWriter` of the source. `clientErr` is the error that
`elasticsearch.NewClient` returns (`none` for `nil`). -/
def NewElasticWriter (config : WriterElasticConfig) (clientErr : Option String) :
    Except String ElasticWriter :=
  match clientErr with
  | some err => .error err
  | none => .ok { BatchWriter := NewBatchWriter config.BatchSize, indexName := config.IndexName }

/-- A value of the interface `writer.Writer` as `initializeWriter` returns it. -/
inductive Writer where
  | clickhouse (w : ClickHouseWriter)
  | elastic (w : ElasticWriter)
  deriving DecidableEq, Repr

/-- The `*BatchWriter` embedded in a writer. -/
def Writer.batchWriter : Writer → BatchWriter
  | .clickhouse w => w.BatchWriter
  | .elastic w => w.BatchWriter

/-- How `initializeWriter` fails: with a nil-pointer panic (it reads
`cfg.Writers.ClickHouse.Host` through a nil pointer), with the error of the driver, or
with "unknown writer type: %s". -/
inductive InitError where
  | nilPointer
  | driver (err : String)
  | unknownWriterType (type : String)
  deriving DecidableEq, Repr

/-- The function `initializeWriter` of the source (cmd/hepop/main.go). The composite
literal `writer.ClickHouseConfig{Host: ..., Port: ..., Database: ..., Table: ...,
Username: ..., Password: ...}` names six of the seven fields; the field `BatchSize`,
which it does not name, has the zero value. The literal `writer.ElasticConfig{}` names
no field. `driverErr` is the error of the driver call inside the constructor. -/
def initializeWriter (cfg : Config) (driverErr : Option String) : Except InitError Writer :=
  if cfg.Writers.Type_ = "clickhouse" then
    match cfg.Writers.ClickHouse with
    | none => .error .nilPointer
    | some ch =>
      match NewClickHouseWriter
          { Host := ch.Host, Port := ch.Port, Database := ch.Database, Table := ch.Table,
            Username := ch.Username, Password := ch.Password, BatchSize := 0 } driverErr with
      | .error err => .error (.driver err)
      | .ok w => .ok (.clickhouse w)
  else if cfg.Writers.Type_ = "elastic" then
    match NewElasticWriter
        { URLs := [], Username := "", Password := "", IndexName := "", BatchSize := 0 }
        driverErr with
    | .error err => .error (.driver err)
    | .ok w => .ok (.elastic w)
  else .error (.unknownWriterType cfg.Writers.Type_)

/-! ## The insert of the ClickHouse sink (internal/writer/clickhouse.go) -/

/-- A value passed to `batch.Append`: an unsigned integer (`uint8`, `uint16`), a Go
string of text, a Go string given by its bytes, a `[]byte`, or the `time.Time` that
`time.Unix(seconds, 0)` returns. -/
inductive ColumnValue where
  | uint (n : Nat)
  | string (s : String)
  | rawString (bytes : List Byte)
  | bytes (bytes : List Byte)
  | unixTime (seconds : Int)
  deriving DecidableEq, Repr

/-- The Go conversion `int64(x)` of a `uint64` value. -/
def toInt64 (x : Nat) : Int :=
  if x % 18446744073709551616 < 9223372036854775808 then (x % 18446744073709551616 : Nat)
  else ((x % 18446744073709551616 : Nat) : Int) - 18446744073709551616

/-- The column list of the `INSERT INTO` statement that `(w *ClickHouseWriter) flush`
prepares, in its order. -/
def ClickHouseWriter.insertColumns : List String :=
  ["version", "protocol_family", "protocol", "src_ip", "dst_ip", "src_port", "dst_port",
   "timestamp", "payload", "cid", "vlan"]

/-- The arguments of the call `batch.Append(...)` that `(w *ClickHouseWriter) flush`
makes for a packet, in their order. -/
def ClickHouseWriter.appendArgs (packet : HEPPacket) : List ColumnValue :=
  [.uint packet.Version, .uint packet.Protocol, .uint packet.ProtoType,
   .string packet.SrcIP, .string packet.DstIP, .uint packet.SrcPort, .uint packet.DstPort,
   .unixTime (toInt64 packet.Timestamp), .bytes packet.Payload, .rawString packet.CID,
   .uint packet.Vlan]

/-- The row that the flush routine appends for a packet: the i-th argument of
`batch.Append` goes to the i-th column of the insert statement. -/
def ClickHouseWriter.row (packet : HEPPacket) : List (String × ColumnValue) :=
  ClickHouseWriter.insertColumns.zip (ClickHouseWriter.appendArgs packet)

/-- The value that the appended row holds in the column `name`. -/
def ClickHouseWriter.column (name : String) (packet : HEPPacket) : Option ColumnValue :=
  (ClickHouseWriter.row packet).lookup name

/-- The select list of the query of `(w *ClickHouseWriter) Search`, in its order. -/
def ClickHouseWriter.searchColumns : List String :=
  ["version", "protocol", "src_ip", "dst_ip", "src_port", "dst_port", "timestamp", "node_id",
   "payload", "cid"]

/-- The packet fields whose addresses `(w *ClickHouseWriter) Search` passes to
`rows.Scan`, in their order. -/
def ClickHouseWriter.scanFields : List String :=
  ["Version", "Protocol", "SrcIP", "DstIP", "SrcPort", "DstPort", "Timestamp", "NodeID",
   "Payload", "CID"]

/-! ## Basic facts about the primitives -/

theorem index_of_lt (data : List Byte) (i : Nat) (h : i < data.length) :
    index data i = .ok (data.getD i 0) := by
  simp [index, List.getD, List.get?_eq_getElem?, List.getElem?_eq_getElem h]

theorem index_of_ge (data : List Byte) (i : Nat) (h : data.length ≤ i) :
    index data i = .error .runtimePanic := by
  simp [index, List.get?_eq_getElem?, List.getElem?_eq_none h]

theorem slice_of_le (data : List Byte) (lo hi : Nat) (h1 : lo ≤ hi) (h2 : hi ≤ data.length) :
    slice data lo hi = .ok (sub data lo hi) := by
  simp [slice, sub, h1, h2]

theorem sliceFrom_of_le (data : List Byte) (lo : Nat) (h : lo ≤ data.length) :
    sliceFrom data lo = .ok (data.drop lo) := by
  simp [sliceFrom, h]

theorem length_sub (data : List Byte) (lo hi : Nat) (h : hi ≤ data.length) :
    (sub data lo hi).length = hi - lo := by
  simp [sub]; omega

theorem Uint16_of_length (b : List Byte) (h : b.length = 2) : Uint16 b = .ok (bigEndian b) := by
  match b, h with
  | [b0, b1], _ => simp [Uint16, bigEndian]

theorem Uint32_of_length (b : List Byte) (h : b.length = 4) : Uint32 b = .ok (bigEndian b) := by
  match b, h with
  | [b0, b1, b2, b3], _ => simp [Uint32, bigEndian]

theorem Uint64_of_length (b : List Byte) (h : b.length = 8) : Uint64 b = .ok (bigEndian b) := by
  match b, h with
  | [b0, b1, b2, b3, b4, b5, b6, b7], _ => simp [Uint64, bigEndian]

theorem ipString_of_length (b : List Byte) (h : b.length = 4) : ipString b = dottedQuad b := by
  match b, h with
  | [b0, b1, b2, b3], _ =>
    simp [ipString, dotted, dottedQuad, String.intercalate, String.intercalate.go,
      String.append_assoc]

theorem foldl_bigEndian_lt (bs : List Byte) (acc : Nat) :
    bs.foldl (fun acc b => acc * 256 + b.val) acc < (acc + 1) * 256 ^ bs.length := by
  induction bs generalizing acc with
  | nil => simp
  | cons b bs ih =>
    have hb : b.val < 256 := b.isLt
    have h1 := ih (acc * 256 + b.val)
    have h2 : (acc * 256 + b.val + 1) * 256 ^ bs.length ≤ ((acc + 1) * 256) * 256 ^ bs.length :=
      Nat.mul_le_mul_right _ (by omega)
    simp only [List.foldl_cons, List.length_cons, pow_succ]
    calc _ < (acc * 256 + b.val + 1) * 256 ^ bs.length := h1
      _ ≤ ((acc + 1) * 256) * 256 ^ bs.length := h2
      _ = (acc + 1) * (256 ^ bs.length * 256) := by ring

theorem bigEndian_lt (bs : List Byte) : bigEndian bs < 256 ^ bs.length := by
  simpa [bigEndian] using foldl_bigEndian_lt bs 0

theorem index_cons_zero (b : Byte) (rest : List Byte) : index (b :: rest) 0 = .ok b := rfl

theorem index_cons_succ (b : Byte) (rest : List Byte) (i : Nat) :
    index (b :: rest) (i + 1) = index rest i := rfl

theorem index_of_head (data : List Byte) (v : Byte) (h : data.head? = some v) :
    index data 0 = .ok v := by
  cases data with
  | nil => simp at h
  | cons b rest =>
    simp only [List.head?_cons, Option.some.injEq] at h
    subst h
    rfl

theorem val_one : ((1 : Byte) : Nat) = 1 := rfl

theorem val_two : ((2 : Byte) : Nat) = 2 := rfl

theorem val_three : ((3 : Byte) : Nat) = 3 := rfl

/-! ## Version dispatch -/

theorem DecodeHEP_of_length_lt (B : List Byte) (h : B.length < 4) :
    DecodeHEP B = .error .ErrPacketTooShort := by
  simp [DecodeHEP, h]

/-- C1: a buffer of fewer than four bytes is rejected with `ErrPacketTooShort`,
whatever its first byte is, and no packet is returned. -/
theorem DecodeHEP_short (B : List Byte) (h : B.length < 4) :
    DecodeHEP B = .error .ErrPacketTooShort := by
  unfold DecodeHEP
  rw [if_pos h]

theorem DecodeHEP_short_witness :
    DecodeHEP [] = .error .ErrPacketTooShort
      ∧ DecodeHEP [1, 0, 0] = .error .ErrPacketTooShort
      ∧ DecodeHEP [2, 0, 0] = .error .ErrPacketTooShort
      ∧ DecodeHEP [3, 0, 0] = .error .ErrPacketTooShort :=
  ⟨DecodeHEP_short [] (by decide), DecodeHEP_short [1, 0, 0] (by decide),
    DecodeHEP_short [2, 0, 0] (by decide), DecodeHEP_short [3, 0, 0] (by decide)⟩

/-- C2: a buffer of at least four bytes whose first byte is none of 1, 2, 3 is
rejected with `ErrInvalidVersion`, and no packet is returned. -/
theorem DecodeHEP_invalid_version (B : List Byte) (v : Byte) (hv : B.head? = some v)
    (hlen : 4 ≤ B.length) (h : v.val ≠ 1 ∧ v.val ≠ 2 ∧ v.val ≠ 3) :
    DecodeHEP B = .error .ErrInvalidVersion := by
  have hlt : ¬ B.length < 4 := by omega
  simp [DecodeHEP, hlt, index_of_head B v hv, HEPv1, HEPv2, HEPv3, h.1, h.2.1, h.2.2,
    bind, Except.bind]

theorem DecodeHEP_invalid_version_witness :
    DecodeHEP [0x04, 0x00, 0x00, 0x00] = .error .ErrInvalidVersion :=
  DecodeHEP_invalid_version [0x04, 0x00, 0x00, 0x00] 0x04 rfl (by decide) (by decide)

/-! ## HEP v1 and v2 -/

theorem DecodeHEP_v1 (B : List Byte) (h0 : B.head? = some 1) (h4 : 4 ≤ B.length) :
    DecodeHEP B = decodeHEPv1 B := by
  have e1 : ¬ B.length < 4 := by omega
  simp [DecodeHEP, if_neg e1, index_of_head B 1 h0, bind, Except.bind, HEPv3, HEPv2, HEPv1,
    val_one]

theorem DecodeHEP_v2 (B : List Byte) (h0 : B.head? = some 2) (h4 : 4 ≤ B.length) :
    DecodeHEP B = decodeHEPv2 B := by
  have e1 : ¬ B.length < 4 := by omega
  simp [DecodeHEP, if_neg e1, index_of_head B 2 h0, bind, Except.bind, HEPv3, HEPv2, HEPv1,
    val_two]

theorem DecodeHEP_v3 (B : List Byte) (h0 : B.head? = some 3) (h4 : 4 ≤ B.length) :
    DecodeHEP B = decodeHEPv3 B := by
  have e1 : ¬ B.length < 4 := by omega
  simp [DecodeHEP, if_neg e1, index_of_head B 3 h0, bind, Except.bind, HEPv3, HEPv2, HEPv1,
    val_three]

theorem decodeHEPv1_of_length (B : List Byte) (hlen : 22 ≤ B.length) :
    decodeHEPv1 B = .ok (v1Layout B) := by
  have e2 : ¬ B.length < 21 := by omega
  simp only [decodeHEPv1, if_neg e2, bind, Except.bind, pure, Except.pure,
    index_of_lt B 1 (by omega),
    slice_of_le B 2 4 (by omega) (by omega), slice_of_le B 4 6 (by omega) (by omega),
    slice_of_le B 6 10 (by omega) (by omega), slice_of_le B 10 14 (by omega) (by omega),
    slice_of_le B 14 18 (by omega) (by omega), slice_of_le B 18 22 (by omega) (by omega),
    sliceFrom_of_le B 22 hlen,
    Uint16_of_length _ (length_sub B 2 4 (by omega)),
    Uint16_of_length _ (length_sub B 4 6 (by omega)),
    Uint32_of_length _ (length_sub B 14 18 (by omega)),
    Uint32_of_length _ (length_sub B 18 22 (by omega)),
    ipString_of_length _ (length_sub B 6 10 (by omega)),
    ipString_of_length _ (length_sub B 10 14 (by omega))]
  simp [HEPv1, byteAt, v1Layout]

theorem decodeHEPv2_of_length (B : List Byte) (hlen : 31 ≤ B.length) :
    decodeHEPv2 B = .ok (v2Layout B) := by
  have e2 : ¬ B.length < 31 := by omega
  simp only [decodeHEPv2, if_neg e2, bind, Except.bind, pure, Except.pure,
    index_of_lt B 1 (by omega), index_of_lt B 2 (by omega), index_of_lt B 23 (by omega),
    slice_of_le B 3 5 (by omega) (by omega), slice_of_le B 5 7 (by omega) (by omega),
    slice_of_le B 7 11 (by omega) (by omega), slice_of_le B 11 15 (by omega) (by omega),
    slice_of_le B 15 19 (by omega) (by omega), slice_of_le B 19 23 (by omega) (by omega),
    sliceFrom_of_le B 24 (by omega),
    Uint16_of_length _ (length_sub B 3 5 (by omega)),
    Uint16_of_length _ (length_sub B 5 7 (by omega)),
    Uint32_of_length _ (length_sub B 15 19 (by omega)),
    Uint32_of_length _ (length_sub B 19 23 (by omega)),
    ipString_of_length _ (length_sub B 7 11 (by omega)),
    ipString_of_length _ (length_sub B 11 15 (by omega))]
  simp [HEPv2, byteAt, v2Layout]

/-- C3: a buffer of at least 22 bytes that starts with the byte 1 always decodes, and
to the packet of the v1 layout table: version 1, protocol `B[1]`, ports big-endian
from `B[2..4)` and `B[4..6)`, addresses dotted-quad from `B[6..10)` and `B[10..14)`,
timestamp the big-endian 32-bit value of `B[14..18)` (hence below `2^32`), node id
big-endian from `B[18..22)`, payload `B[22..]` (possibly empty), all other fields
zero. -/
theorem DecodeHEP_v1_layout (B : List Byte) (h0 : B.head? = some 1) (hlen : 22 ≤ B.length) :
    DecodeHEP B = .ok
        { Version := 1, Protocol := byteAt B 1,
          SrcIP := dottedQuad (sub B 6 10), DstIP := dottedQuad (sub B 10 14),
          SrcPort := bigEndian (sub B 2 4), DstPort := bigEndian (sub B 4 6),
          Timestamp := bigEndian (sub B 14 18), ProtoType := 0,
          NodeID := bigEndian (sub B 18 22), NodeName := "",
          Payload := B.drop 22, CID := [], Vlan := 0 }
      ∧ bigEndian (sub B 14 18) < 2 ^ 32 := by
  refine ⟨?_, ?_⟩
  · rw [DecodeHEP_v1 B h0 (by omega), decodeHEPv1_of_length B hlen]
    rfl
  · have h := bigEndian_lt (sub B 14 18)
    rw [length_sub B 14 18 (by omega)] at h
    exact h

theorem DecodeHEP_v1_layout_witness :
    DecodeHEP testPacketV1 = .ok
      { Version := 1, Protocol := 17, SrcIP := "192.168.1.1", DstIP := "192.168.1.2",
        SrcPort := 5060, DstPort := 5060, Timestamp := 1700000000, ProtoType := 0,
        NodeID := 2001, NodeName := "", Payload := [84, 69, 83, 84, 0, 0, 0, 0],
        CID := [], Vlan := 0 } :=
  (DecodeHEP_v1_layout testPacketV1 rfl (by decide)).1

theorem decodeHEPv1_of_length_lt (B : List Byte) (h : B.length < 21) :
    decodeHEPv1 B = .error .ErrPacketTooShort := by
  simp [decodeHEPv1, h]

theorem decodeHEPv1_of_length_eq (B : List Byte) (h : B.length = 21) :
    decodeHEPv1 B = .error .runtimePanic := by
  have e2 : ¬ B.length < 21 := by omega
  have e3 : ¬ (18 ≤ 22 ∧ 22 ≤ B.length) := by omega
  simp only [decodeHEPv1, if_neg e2, bind, Except.bind,
    index_of_lt B 1 (by omega),
    slice_of_le B 2 4 (by omega) (by omega), slice_of_le B 4 6 (by omega) (by omega),
    slice_of_le B 6 10 (by omega) (by omega), slice_of_le B 10 14 (by omega) (by omega),
    slice_of_le B 14 18 (by omega) (by omega),
    Uint16_of_length _ (length_sub B 2 4 (by omega)),
    Uint16_of_length _ (length_sub B 4 6 (by omega)),
    Uint32_of_length _ (length_sub B 14 18 (by omega))]
  simp only [slice, if_neg e3]

theorem decodeHEPv2_of_length_lt (B : List Byte) (h : B.length < 31) :
    decodeHEPv2 B = .error .ErrPacketTooShort := by
  simp [decodeHEPv2, h]

/-- C4: the minimum HEP v1 length of 22 asks for `ErrPacketTooShort` on every version-1
buffer of 4 to 21 bytes. On this 21-byte buffer the length guard `len(data) < 21` lets the buffer
through, and the slice expressions `data[18:22]` and `data[22:]` then go out of range:
the decoder panics instead of returning `ErrPacketTooShort`. -/
theorem DecodeHEP_v1_length21_panics :
    shortPacketV1.head? = some 1 ∧ shortPacketV1.length = 21
      ∧ DecodeHEP shortPacketV1 = .error .runtimePanic := by
  decide

/-- C5, counterexample: a version-2 buffer of 25 bytes is rejected with
`ErrPacketTooShort`, so "succeeds if `len(B) >= 25`" does not hold. -/
theorem DecodeHEP_v2_length25_rejected :
    shortPacketV2.head? = some 2 ∧ shortPacketV2.length = 25
      ∧ DecodeHEP shortPacketV2 = .error .ErrPacketTooShort
      ∧ ¬ (∀ B : List Byte, B.head? = some 2 → 4 ≤ B.length →
            (B.length < 25 → DecodeHEP B = .error .ErrPacketTooShort)
              ∧ (25 ≤ B.length → ∃ p, DecodeHEP B = .ok p)) := by
  refine ⟨rfl, rfl, by decide, fun h => ?_⟩
  obtain ⟨p, hp⟩ := (h shortPacketV2 rfl (by decide)).2 (by decide)
  have h2 : DecodeHEP shortPacketV2 = .error .ErrPacketTooShort := by decide
  rw [h2] at hp
  exact Except.noConfusion hp

/-- C5, as amended: the minimum HEP v2 length enforced by the decoder is 31. A buffer of
at least four bytes that starts with the byte 2 is rejected with `ErrPacketTooShort`
if it has fewer than 31 bytes and decodes successfully if it has 31 bytes or more. -/
theorem DecodeHEP_v2_min_length (B : List Byte) (h0 : B.head? = some 2) (h4 : 4 ≤ B.length) :
    (B.length < 31 → DecodeHEP B = .error .ErrPacketTooShort)
      ∧ (31 ≤ B.length → ∃ p, DecodeHEP B = .ok p) := by
  rw [DecodeHEP_v2 B h0 h4]
  exact ⟨decodeHEPv2_of_length_lt B, fun h => ⟨_, decodeHEPv2_of_length B h⟩⟩

theorem DecodeHEP_v2_min_length_witness :
    DecodeHEP (testPacketV2.take 30) = .error .ErrPacketTooShort
      ∧ ∃ p, DecodeHEP (testPacketV2.take 31) = .ok p :=
  ⟨(DecodeHEP_v2_min_length (testPacketV2.take 30) rfl (by decide)).1 (by decide),
   (DecodeHEP_v2_min_length (testPacketV2.take 31) rfl (by decide)).2 (by decide)⟩

theorem v2Layout_set_family (B : List Byte) (f : Byte) : v2Layout (B.set 1 f) = v2Layout B := by
  have hd : ∀ lo hi, 1 < lo → sub (B.set 1 f) lo hi = sub B lo hi := by
    intro lo hi h
    simp [sub, List.drop_set_of_lt f B h]
  have hb : ∀ i, 1 < i → byteAt (B.set 1 f) i = byteAt B i := by
    intro i h
    have : 1 ≠ i := by omega
    simp [byteAt, List.getD, List.getElem?_set_ne this]
  simp [v2Layout, hd, hb, List.drop_set_of_lt f B (show 1 < 24 by decide)]

theorem head?_set_one (B : List Byte) (f : Byte) : (B.set 1 f).head? = B.head? := by
  cases B with
  | nil => rfl
  | cons b rest => rfl

/-- C6: for a buffer that starts with the byte 2, every successful decoding yields the
packet of the v2 layout (`v2Layout`: version 2, protocol `B[2]`, ports big-endian from
`B[3..5)` and `B[5..7)`, addresses dotted-quad from `B[7..11)` and `B[11..15)`,
timestamp big-endian from `B[15..19)`, node id big-endian from `B[19..23)`, protocol
type `B[23]`, payload `B[24..]`); decoding does succeed from 31 bytes on; and
replacing the family byte `B[1]` by any other value leaves the result unchanged. -/
theorem DecodeHEP_v2_layout (B : List Byte) (h0 : B.head? = some 2) :
    (∀ p, DecodeHEP B = .ok p → p = v2Layout B)
      ∧ (31 ≤ B.length → DecodeHEP B = .ok (v2Layout B))
      ∧ (∀ f : Byte, DecodeHEP (B.set 1 f) = DecodeHEP B) := by
  have key : ∀ C : List Byte, C.head? = some 2 →
      DecodeHEP C = if C.length < 31 then .error .ErrPacketTooShort else .ok (v2Layout C) := by
    intro C hC
    by_cases h4 : C.length < 4
    · rw [DecodeHEP_of_length_lt C h4, if_pos (by omega)]
    · rw [DecodeHEP_v2 C hC (by omega)]
      by_cases h31 : C.length < 31
      · rw [decodeHEPv2_of_length_lt C h31, if_pos h31]
      · rw [decodeHEPv2_of_length C (by omega), if_neg h31]
  refine ⟨?_, ?_, ?_⟩
  · intro p hp
    rw [key B h0] at hp
    by_cases h31 : B.length < 31
    · rw [if_pos h31] at hp
      exact Except.noConfusion hp
    · rw [if_neg h31] at hp
      exact (Except.ok.inj hp).symm
  · intro h
    rw [key B h0, if_neg (by omega)]
  · intro f
    rw [key B h0, key (B.set 1 f) ((head?_set_one B f).trans h0), List.length_set,
      v2Layout_set_family]

theorem DecodeHEP_v2_layout_witness :
    DecodeHEP testPacketV2 = .ok
      { Version := 2, Protocol := 17, SrcIP := "192.168.1.1", DstIP := "192.168.1.2",
        SrcPort := 5060, DstPort := 5060, Timestamp := 1700000000, ProtoType := 1,
        NodeID := 2001, NodeName := "",
        Payload := [84, 69, 83, 84, 0, 0, 0, 0, 0, 0, 0], CID := [], Vlan := 0 } :=
  (DecodeHEP_v2_layout testPacketV2 rfl).2.1 (by decide)

/-! ## HEP v3: decoding the wire form of a chunk sequence -/

theorem ok_bind {α β : Type} (a : α) (f : α → Except Failure β) :
    (Except.ok a >>= f) = f a := rfl

theorem error_bind {α β : Type} (e : Failure) (f : α → Except Failure β) :
    (Except.error e >>= f) = .error e := rfl

theorem slice_at (data pre mid post : List Byte) (lo hi : Nat)
    (hd : data = pre ++ (mid ++ post)) (hlo : lo = pre.length) (hhi : hi = lo + mid.length) :
    slice data lo hi = .ok mid := by
  subst hd hlo hhi
  simp [slice]

theorem length_be16 (n : Nat) : (be16 n).length = 2 := rfl

theorem Uint16_be16 (n : Nat) (h : n < 65536) : Uint16 (be16 n) = .ok n := by
  simp only [Uint16, be16]
  congr 1
  omega

theorem length_encodeChunk (c : Chunk) : (encodeChunk c).length = 6 + c.data.length := by
  simp [encodeChunk, length_be16]; omega

theorem decodeHEPv3Loop_step (fuel : Nat) (pre rest : List Byte) (c : Chunk) (p : HEPPacket)
    (hc : c.framed) :
    decodeHEPv3Loop (fuel + 1) (pre ++ (encodeChunk c ++ rest)) pre.length p =
      match chunkSwitch p c.toHep with
      | .ok p' =>
          decodeHEPv3Loop fuel (pre ++ (encodeChunk c ++ rest))
            (pre.length + (6 + c.data.length)) p'
      | .error e => .error e := by
  obtain ⟨hv, ht, hl⟩ := hc
  generalize hdata : pre ++ (encodeChunk c ++ rest) = data
  have hlen : data.length = pre.length + (6 + c.data.length) + rest.length := by
    subst hdata; simp [length_encodeChunk]; omega
  have s1 : slice data pre.length (pre.length + 2) = .ok (be16 c.vendor) :=
    slice_at data pre (be16 c.vendor) _ _ _ (by subst hdata; simp [encodeChunk]; rfl) rfl rfl
  have s2 : slice data (pre.length + 2) (pre.length + 4) = .ok (be16 c.ctype) :=
    slice_at data (pre ++ be16 c.vendor) (be16 c.ctype) _ _ _
      (by subst hdata; simp [encodeChunk]; rfl) (by simp [length_be16]) (by simp [length_be16])
  have s3 : slice data (pre.length + 4) (pre.length + 6) = .ok (be16 (6 + c.data.length)) :=
    slice_at data (pre ++ (be16 c.vendor ++ be16 c.ctype)) (be16 (6 + c.data.length)) _ _ _
      (by subst hdata; simp [encodeChunk]; rfl) (by simp [length_be16]) (by simp [length_be16])
  have hdl : subUint16 (6 + c.data.length) 6 = c.data.length := by
    unfold subUint16; omega
  have s4 : slice data (pre.length + 6) (pre.length + 6 + c.data.length) = .ok c.data :=
    slice_at data (pre ++ (be16 c.vendor ++ (be16 c.ctype ++ be16 (6 + c.data.length))))
      c.data rest _ _
      (by subst hdata; simp [encodeChunk]) (by simp [length_be16]) (by simp [length_be16])
  have c1 : pre.length < data.length := by omega
  have c2 : ¬ pre.length + 6 > data.length := by omega
  have c3 : ¬ pre.length + 6 + c.data.length > data.length := by omega
  rw [decodeHEPv3Loop, if_pos c1, if_neg c2]
  simp only [s1, s2, s3, ok_bind, Uint16_be16 _ hv, Uint16_be16 _ ht, Uint16_be16 _ hl, hdl,
    if_neg c3, s4]
  simp only [Chunk.toHep, Nat.add_assoc]
  cases chunkSwitch p ⟨c.vendor, c.ctype, 6 + c.data.length, c.data⟩ <;> rfl

theorem length_le_length_encodeChunks (cs : List Chunk) :
    cs.length ≤ (encodeChunks cs).length := by
  induction cs with
  | nil => simp [encodeChunks]
  | cons c cs ih =>
    simp only [encodeChunks, List.length_cons, List.length_append, length_encodeChunk]
    omega

theorem decodeHEPv3Loop_encodeChunks (cs : List Chunk) :
    ∀ (fuel : Nat) (pre : List Byte) (p : HEPPacket), cs.length ≤ fuel →
      (∀ c ∈ cs, c.framed) →
      decodeHEPv3Loop fuel (pre ++ encodeChunks cs) pre.length p = applyChunks p cs := by
  induction cs with
  | nil =>
    intro fuel pre p _ _
    cases fuel <;> simp [decodeHEPv3Loop, encodeChunks, applyChunks]
  | cons c cs ih =>
    intro fuel pre p hfuel hcs
    cases fuel with
    | zero => simp at hfuel
    | succ fuel =>
      have hc : c.framed := hcs c (List.mem_cons_self _ _)
      have hrest : ∀ c' ∈ cs, c'.framed := fun c' h => hcs c' (List.mem_cons_of_mem _ h)
      have hf : cs.length ≤ fuel := by simpa using hfuel
      have hstep := decodeHEPv3Loop_step fuel pre (encodeChunks cs) c p hc
      have hnext : ∀ p', decodeHEPv3Loop fuel (pre ++ (encodeChunk c ++ encodeChunks cs))
          (pre.length + (6 + c.data.length)) p' = applyChunks p' cs := by
        intro p'
        have := ih fuel (pre ++ encodeChunk c) p' hf hrest
        simpa [length_encodeChunk, List.append_assoc] using this
      simp only [encodeChunks, applyChunks]
      rw [hstep]
      cases chunkSwitch p c.toHep with
      | error e => rfl
      | ok p' => exact hnext p'

theorem decodeHEPv3_encodeHEPv3 (b0 b1 b2 b3 : Byte) (cs : List Chunk)
    (hcs : ∀ c ∈ cs, c.framed) (htotal : 6 + (encodeChunks cs).length < 65536) :
    decodeHEPv3 (encodeHEPv3 b0 b1 b2 b3 cs)
      = applyChunks { HEPPacket.zero with Version := b0.val } cs := by
  generalize hdata : encodeHEPv3 b0 b1 b2 b3 cs = data
  have hlen : data.length = 6 + (encodeChunks cs).length := by
    subst hdata; simp [encodeHEPv3, length_be16]; omega
  have e1 : ¬ data.length < 6 := by omega
  have i0 : index data 0 = .ok b0 := by subst hdata; rfl
  have s1 : slice data 4 6 = .ok (be16 (6 + (encodeChunks cs).length)) :=
    slice_at data [b0, b1, b2, b3] _ (encodeChunks cs) 4 6 (by subst hdata; rfl) rfl rfl
  have e2 : ¬ 6 + (encodeChunks cs).length > data.length := by omega
  have hloop := decodeHEPv3Loop_encodeChunks cs data.length
    ([b0, b1, b2, b3] ++ be16 (6 + (encodeChunks cs).length))
    { HEPPacket.zero with Version := b0.val }
    (by have := length_le_length_encodeChunks cs; omega) hcs
  have hd2 : ([b0, b1, b2, b3] ++ be16 (6 + (encodeChunks cs).length)) ++ encodeChunks cs = data := by
    subst hdata; simp [encodeHEPv3]
  rw [hd2] at hloop
  simp only [decodeHEPv3, if_neg e1, i0, s1, ok_bind, Uint16_be16 _ htotal, if_neg e2]
  exact hloop

theorem DecodeHEP_encodeHEPv3 (b1 b2 b3 : Byte) (cs : List Chunk)
    (hcs : ∀ c ∈ cs, c.framed) (htotal : 6 + (encodeChunks cs).length < 65536) :
    DecodeHEP (encodeHEPv3 3 b1 b2 b3 cs)
      = applyChunks { HEPPacket.zero with Version := 3 } cs := by
  rw [DecodeHEP_v3 (encodeHEPv3 3 b1 b2 b3 cs) rfl (by simp [encodeHEPv3]),
    decodeHEPv3_encodeHEPv3 3 b1 b2 b3 cs hcs htotal]
  rfl

/-! ## HEP v3: the effect of the chunk switch -/

theorem Uint16_of_le (b : List Byte) (h : 2 ≤ b.length) :
    Uint16 b = .ok (bigEndian (b.take 2)) := by
  match b, h with
  | b0 :: b1 :: _, _ => simp [Uint16, bigEndian]

theorem Uint32_of_le (b : List Byte) (h : 4 ≤ b.length) :
    Uint32 b = .ok (bigEndian (b.take 4)) := by
  match b, h with
  | b0 :: b1 :: b2 :: b3 :: _, _ => simp [Uint32, bigEndian]

theorem Uint64_of_le (b : List Byte) (h : 8 ≤ b.length) :
    Uint64 b = .ok (bigEndian (b.take 8)) := by
  match b, h with
  | b0 :: b1 :: b2 :: b3 :: b4 :: b5 :: b6 :: b7 :: _, _ => simp [Uint64, bigEndian]

theorem chunkSwitch_eq_chunkEffect (p : HEPPacket) (c : Chunk)
    (h : minDataLen c.ctype ≤ c.data.length) :
    chunkSwitch p c.toHep = .ok (chunkEffect p c) := by
  unfold minDataLen at h
  unfold chunkSwitch chunkEffect
  simp only [Chunk.toHep, TypeIPProtocolFamily, TypeIPSourceIP, TypeIPDestinationIP,
    TypeIPSourcePort, TypeIPDestinationPort, TypeTimestamp, TypeProtocolType,
    TypeCaptureAgentID, TypePayload, TypeCorrelationID, TypeVLAN] at h ⊢
  by_cases h1 : c.ctype = 1
  · simp only [h1, true_or, if_true] at h
    simp only [h1, if_true]
    rw [index_of_lt _ 0 h]; rfl
  by_cases h3 : c.ctype = 3
  · simp [h3]; rfl
  by_cases h4 : c.ctype = 4
  · simp [h4]; rfl
  by_cases h7 : c.ctype = 7
  · simp [h7] at h
    simp [h7]
    rw [Uint16_of_le _ h]; rfl
  by_cases h8 : c.ctype = 8
  · simp [h8] at h
    simp [h8]
    rw [Uint16_of_le _ h]; rfl
  by_cases h9 : c.ctype = 9
  · simp [h9] at h
    simp [h9]
    rw [Uint64_of_le _ h]; rfl
  by_cases h10 : c.ctype = 10
  · simp [h10] at h
    simp [h10]
    rw [index_of_lt _ 0 h]; rfl
  by_cases h11 : c.ctype = 11
  · simp [h11] at h
    simp [h11]
    rw [Uint32_of_le _ h]; rfl
  by_cases h15 : c.ctype = 15
  · simp [h15]; rfl
  by_cases h17 : c.ctype = 17
  · simp [h17]; rfl
  by_cases h18 : c.ctype = 18
  · simp [h18] at h
    simp [h18]
    rw [Uint16_of_le _ h]; rfl
  simp only [h1, h3, h4, h7, h8, h9, h10, h11, h15, h17, h18, if_false]
  rfl

theorem applyChunks_eq_foldl (cs : List Chunk) :
    ∀ p : HEPPacket, (∀ c ∈ cs, minDataLen c.ctype ≤ c.data.length) →
      applyChunks p cs = .ok (cs.foldl chunkEffect p) := by
  induction cs with
  | nil => intro p _; rfl
  | cons c cs ih =>
    intro p h
    have hc := h c (List.mem_cons_self _ _)
    simp only [applyChunks, chunkSwitch_eq_chunkEffect p c hc, List.foldl_cons]
    exact ih _ fun c' hc' => h c' (List.mem_cons_of_mem _ hc')

theorem foldl_chunkEffect_field {α : Type} (g : HEPPacket → α) (t : Nat)
    (val : List Byte → α)
    (hstep : ∀ p c, g (chunkEffect p c) = if c.ctype = t then val c.data else g p)
    (cs : List Chunk) :
    ∀ p : HEPPacket, g (cs.foldl chunkEffect p)
      = match lastChunk t cs with
        | some c => val c.data
        | none => g p := by
  induction cs with
  | nil => intro p; rfl
  | cons c cs ih =>
    intro p
    simp only [List.foldl_cons, lastChunk]
    rw [ih]
    cases lastChunk t cs with
    | some c' => rfl
    | none =>
      simp only [hstep]
      by_cases hct : c.ctype = t <;> simp [hct]

theorem chunkEffect_fields (p : HEPPacket) (c : Chunk) :
    (chunkEffect p c).Version = p.Version
    ∧ (chunkEffect p c).Protocol
        = (if c.ctype = TypeIPProtocolFamily then byteAt c.data 0 else p.Protocol)
    ∧ (chunkEffect p c).SrcIP
        = (if c.ctype = TypeIPSourceIP then ipString c.data else p.SrcIP)
    ∧ (chunkEffect p c).DstIP
        = (if c.ctype = TypeIPDestinationIP then ipString c.data else p.DstIP)
    ∧ (chunkEffect p c).SrcPort
        = (if c.ctype = TypeIPSourcePort then bigEndian (c.data.take 2) else p.SrcPort)
    ∧ (chunkEffect p c).DstPort
        = (if c.ctype = TypeIPDestinationPort then bigEndian (c.data.take 2) else p.DstPort)
    ∧ (chunkEffect p c).Timestamp
        = (if c.ctype = TypeTimestamp then bigEndian (c.data.take 8) else p.Timestamp)
    ∧ (chunkEffect p c).ProtoType
        = (if c.ctype = TypeProtocolType then byteAt c.data 0 else p.ProtoType)
    ∧ (chunkEffect p c).NodeID
        = (if c.ctype = TypeCaptureAgentID then bigEndian (c.data.take 4) else p.NodeID)
    ∧ (chunkEffect p c).NodeName = p.NodeName
    ∧ (chunkEffect p c).Payload = (if c.ctype = TypePayload then c.data else p.Payload)
    ∧ (chunkEffect p c).CID = (if c.ctype = TypeCorrelationID then c.data else p.CID)
    ∧ (chunkEffect p c).Vlan
        = (if c.ctype = TypeVLAN then bigEndian (c.data.take 2) else p.Vlan) := by
  unfold chunkEffect
  simp only [TypeIPProtocolFamily, TypeIPSourceIP, TypeIPDestinationIP,
    TypeIPSourcePort, TypeIPDestinationPort, TypeTimestamp, TypeProtocolType,
    TypeCaptureAgentID, TypePayload, TypeCorrelationID, TypeVLAN]
  by_cases h1 : c.ctype = 1
  · simp [h1]
  by_cases h3 : c.ctype = 3
  · simp [h3]
  by_cases h4 : c.ctype = 4
  · simp [h4]
  by_cases h7 : c.ctype = 7
  · simp [h7]
  by_cases h8 : c.ctype = 8
  · simp [h8]
  by_cases h9 : c.ctype = 9
  · simp [h9]
  by_cases h10 : c.ctype = 10
  · simp [h10]
  by_cases h11 : c.ctype = 11
  · simp [h11]
  by_cases h15 : c.ctype = 15
  · simp [h15]
  by_cases h17 : c.ctype = 17
  · simp [h17]
  by_cases h18 : c.ctype = 18
  · simp [h18]
  simp [h1, h3, h4, h7, h8, h9, h10, h11, h15, h17, h18]

theorem foldl_chunkEffect_Version (cs : List Chunk) :
    ∀ p : HEPPacket, (cs.foldl chunkEffect p).Version = p.Version := by
  induction cs with
  | nil => intro p; rfl
  | cons c cs ih =>
    intro p
    simp only [List.foldl_cons]
    rw [ih]
    exact (chunkEffect_fields p c).1

theorem lastChunk_eq_none (t : Nat) (cs : List Chunk) (h : countType t cs = 0) :
    lastChunk t cs = none := by
  induction cs with
  | nil => rfl
  | cons c cs ih =>
    unfold countType at h ih
    by_cases hct : c.ctype = t
    · rw [List.countP_cons, if_pos (by simpa using hct)] at h
      omega
    · rw [List.countP_cons, if_neg (by simpa using hct)] at h
      simp [lastChunk, ih (by omega), hct]

theorem lastChunk_eq_chunkOf (t : Nat) (cs : List Chunk) (h : countType t cs ≤ 1) :
    lastChunk t cs = chunkOf t cs := by
  induction cs with
  | nil => rfl
  | cons c cs ih =>
    by_cases hct : c.ctype = t
    · have h0 : countType t cs = 0 := by
        unfold countType at h ⊢
        rw [List.countP_cons, if_pos (by simpa using hct)] at h
        omega
      simp [lastChunk, chunkOf, lastChunk_eq_none t cs h0, hct]
    · have h1 : countType t cs ≤ 1 := by
        unfold countType at h ⊢
        rw [List.countP_cons, if_neg (by simpa using hct)] at h
        omega
      have := ih h1
      unfold chunkOf at this ⊢
      simp only [lastChunk, this, List.find?_cons, hct, decide_False]
      cases List.find? (fun c => decide (c.ctype = t)) cs <;> simp [hct]

theorem minDataLen_le_of_tableSized (c : Chunk) (h : c.tableSized) :
    minDataLen c.ctype ≤ c.data.length := by
  obtain ⟨h1, _, h3, h4, h5, h6⟩ := h
  unfold minDataLen
  split_ifs with a b d e
  · rcases a with a | a
    · rw [h1 a]
    · rw [h5 a]
  · rw [h3 b]
  · rw [h6 d]
  · rw [h4 e]
  · exact Nat.zero_le _

theorem minDataLen_le_of_listedSized (c : Chunk) (h : c.listedSized)
    (hfamily : c.ctype = TypeIPProtocolFamily → 1 ≤ c.data.length) :
    minDataLen c.ctype ≤ c.data.length := by
  obtain ⟨_, h3, h4, h5, h6⟩ := h
  unfold minDataLen
  split_ifs with a b d e
  · rcases a with a | a
    · exact hfamily a
    · rw [h5 a]
  · rw [h3 b]
  · rw [h6 d]
  · rw [h4 e]
  · exact Nat.zero_le _

theorem chunkOf_some (t : Nat) (cs : List Chunk) (c : Chunk) (h : chunkOf t cs = some c) :
    c ∈ cs ∧ c.ctype = t := by
  unfold chunkOf at h
  exact ⟨List.mem_of_find?_eq_some h, by simpa using List.find?_some h⟩

theorem foldl_chunkEffect_valueOf {α : Type} (g : HEPPacket → α) (t : Nat)
    (val f : List Byte → α) (z : α) (cs : List Chunk) (p0 : HEPPacket)
    (hstep : ∀ p c, g (chunkEffect p c) = if c.ctype = t then val c.data else g p)
    (hz : g p0 = z) (honce : countType t cs ≤ 1)
    (hval : ∀ c ∈ cs, c.ctype = t → val c.data = f c.data) :
    g (cs.foldl chunkEffect p0) = valueOf t cs f z := by
  rw [foldl_chunkEffect_field g t val hstep cs p0, lastChunk_eq_chunkOf t cs honce]
  unfold valueOf
  cases hc : chunkOf t cs with
  | none => exact hz
  | some c =>
    obtain ⟨hmem, hct⟩ := chunkOf_some t cs c hc
    exact hval c hmem hct

theorem take_of_length_eq (d : List Byte) (n : Nat) (h : d.length = n) : d.take n = d := by
  subst h; simp

/-! ## HEP v3: version, protocol and field statements -/

/-- C7, counterexample: a buffer that carries the magic "HEP3" in bytes 0-3, its own
length in bytes 4-5 and one well-formed payload chunk is rejected with
`ErrInvalidVersion`, because its first byte is 0x48 and not 3. -/
theorem DecodeHEP_magic_rejected :
    hep3MagicPacket = encodeHEPv3 0x48 0x45 0x50 0x33 [⟨0, TypePayload, [84, 69, 83, 84]⟩]
      ∧ (∀ c ∈ [(⟨0, TypePayload, [84, 69, 83, 84]⟩ : Chunk)], c.wellFormed)
      ∧ bigEndian (sub hep3MagicPacket 4 6) = hep3MagicPacket.length
      ∧ DecodeHEP hep3MagicPacket = .error .ErrInvalidVersion := by
  decide

/-- C7, as amended: HEP v3 is recognised by its first byte being 3 (the decoder knows no
magic). For every buffer whose first byte is 3 (bytes 1-3 arbitrary), whose bytes 4-5
hold the buffer length big-endian, and whose body is a sequence of well-formed chunks,
`DecodeHEP` succeeds and returns a packet with version 3. -/
theorem DecodeHEP_v3_version (b1 b2 b3 : Byte) (cs : List Chunk)
    (hwf : ∀ c ∈ cs, c.wellFormed) (htotal : 6 + (encodeChunks cs).length < 65536) :
    ∃ p, DecodeHEP (encodeHEPv3 3 b1 b2 b3 cs) = .ok p ∧ p.Version = 3 := by
  refine ⟨cs.foldl chunkEffect { HEPPacket.zero with Version := 3 }, ?_, ?_⟩
  · rw [DecodeHEP_encodeHEPv3 b1 b2 b3 cs (fun c hc => (hwf c hc).1) htotal]
    exact applyChunks_eq_foldl cs _ fun c hc => (hwf c hc).2
  · rw [foldl_chunkEffect_Version]

theorem DecodeHEP_v3_version_witness :
    ∃ p, DecodeHEP (encodeHEPv3 3 0x45 0x50 0x33 testChunksV3) = .ok p ∧ p.Version = 3 :=
  DecodeHEP_v3_version 0x45 0x50 0x33 testChunksV3 (by decide) (by decide)

/-- C8: the chunk list of `TestHEPv3Decode`, laid out as vendor(2) type(2) length(2)
data with the total length stamped, carries the IP family 2 and the IP protocol 17. It
decodes without error, but to a packet whose protocol is 2, the byte of the family
chunk: the `switch` stores the data of `TypeIPProtocolFamily` in `Protocol` and has no
case for `TypeIPProtocolID`. The test expects protocol 17. -/
theorem DecodeHEP_v3_protocol_is_family :
    DecodeHEP (encodeHEPv3 3 0 0 0 testChunksV3) = .ok
      { Version := 3, Protocol := 2, SrcIP := "192.168.1.1", DstIP := "192.168.1.2",
        SrcPort := 5060, DstPort := 5060, Timestamp := 0, ProtoType := 1, NodeID := 2001,
        NodeName := "", Payload := [84, 69, 83, 84], CID := [], Vlan := 0 } := by
  decide

theorem DecodeHEP_createHEPv3TestPacket :
    DecodeHEP createHEPv3TestPacket = .error .ErrInvalidChunk := by
  decide

theorem DecodeHEP_v3_Protocol (b1 b2 b3 : Byte) (cs : List Chunk)
    (hwf : ∀ c ∈ cs, c.wellFormed) (htotal : 6 + (encodeChunks cs).length < 65536) :
    ∃ p, DecodeHEP (encodeHEPv3 3 b1 b2 b3 cs) = .ok p
      ∧ p.Protocol = match lastChunk TypeIPProtocolFamily cs with
        | some c => byteAt c.data 0
        | none => 0 := by
  refine ⟨cs.foldl chunkEffect { HEPPacket.zero with Version := 3 }, ?_, ?_⟩
  · rw [DecodeHEP_encodeHEPv3 b1 b2 b3 cs (fun c hc => (hwf c hc).1) htotal]
    exact applyChunks_eq_foldl cs _ fun c hc => (hwf c hc).2
  · exact foldl_chunkEffect_field (fun p => p.Protocol) TypeIPProtocolFamily
      (fun d => byteAt d 0) (fun p c => (chunkEffect_fields p c).2.1) cs _

/-- The field statement where it holds: for every version-3 buffer (first byte 3, total
length stamped) made of framed chunks among which each of the types 0x0003, 0x0004,
0x0007, 0x0008, 0x0009, 0x000A, 0x000B, 0x000F, 0x0011, 0x0012 occurs at most once with
the data size of the codec table, and in which every IP-family chunk (type 0x0001)
carries at least one data byte, `DecodeHEP` succeeds with a version-3 packet in which
`SrcIP` / `DstIP` are the rendering of the 0x0003 / 0x0004 chunk (dotted-quad for four
bytes), `SrcPort` / `DstPort` / `Vlan` are the big-endian values of the chunks 0x0007 /
0x0008 / 0x0012, `Timestamp` is the big-endian value of chunk 0x0009, `ProtoType` is the
byte of chunk 0x000A, `NodeID` is the big-endian value of chunk 0x000B, `Payload` and
`CID` are the bytes of the chunks 0x000F and 0x0011; a field whose chunk is absent is
zero or empty. -/
theorem DecodeHEP_v3_fields (b1 b2 b3 : Byte) (cs : List Chunk)
    (hframed : ∀ c ∈ cs, c.framed) (htotal : 6 + (encodeChunks cs).length < 65536)
    (hsize : ∀ c ∈ cs, c.listedSized)
    (hfamily : ∀ c ∈ cs, c.ctype = TypeIPProtocolFamily → 1 ≤ c.data.length)
    (honce : ∀ t ∈ singleTypes, countType t cs ≤ 1) :
    ∃ p, DecodeHEP (encodeHEPv3 3 b1 b2 b3 cs) = .ok p
      ∧ p.Version = 3
      ∧ p.SrcIP = valueOf TypeIPSourceIP cs addressText ""
      ∧ p.DstIP = valueOf TypeIPDestinationIP cs addressText ""
      ∧ p.SrcPort = valueOf TypeIPSourcePort cs bigEndian 0
      ∧ p.DstPort = valueOf TypeIPDestinationPort cs bigEndian 0
      ∧ p.Vlan = valueOf TypeVLAN cs bigEndian 0
      ∧ p.Timestamp = valueOf TypeTimestamp cs bigEndian 0
      ∧ p.ProtoType = valueOf TypeProtocolType cs (fun d => byteAt d 0) 0
      ∧ p.NodeID = valueOf TypeCaptureAgentID cs bigEndian 0
      ∧ p.Payload = valueOf TypePayload cs (fun d => d) []
      ∧ p.CID = valueOf TypeCorrelationID cs (fun d => d) [] := by
  have haddr : ∀ d : List Byte, ipString d = addressText d := by
    intro d
    unfold addressText
    by_cases h4 : d.length = 4
    · rw [if_pos h4, ipString_of_length d h4]
    · rw [if_neg h4]
  refine ⟨cs.foldl chunkEffect { HEPPacket.zero with Version := 3 }, ?_, ?_, ?_, ?_, ?_, ?_,
    ?_, ?_, ?_, ?_, ?_, ?_⟩
  · rw [DecodeHEP_encodeHEPv3 b1 b2 b3 cs hframed htotal]
    exact applyChunks_eq_foldl cs _ fun c hc =>
      minDataLen_le_of_listedSized c (hsize c hc) (hfamily c hc)
  · rw [foldl_chunkEffect_Version]
  · exact foldl_chunkEffect_valueOf (fun p => p.SrcIP) TypeIPSourceIP ipString addressText ""
      cs _ (fun p c => (chunkEffect_fields p c).2.2.1) rfl (honce _ (by simp [singleTypes]))
      (fun c _ _ => haddr c.data)
  · exact foldl_chunkEffect_valueOf (fun p => p.DstIP) TypeIPDestinationIP ipString
      addressText "" cs _ (fun p c => (chunkEffect_fields p c).2.2.2.1) rfl
      (honce _ (by simp [singleTypes])) (fun c _ _ => haddr c.data)
  · exact foldl_chunkEffect_valueOf (fun p => p.SrcPort) TypeIPSourcePort
      (fun d => bigEndian (d.take 2)) bigEndian 0 cs _
      (fun p c => (chunkEffect_fields p c).2.2.2.2.1) rfl (honce _ (by simp [singleTypes]))
      (fun c hc ht => by
        show bigEndian (c.data.take 2) = bigEndian c.data
        rw [take_of_length_eq c.data 2 ((hsize c hc).2.1 (Or.inl ht))])
  · exact foldl_chunkEffect_valueOf (fun p => p.DstPort) TypeIPDestinationPort
      (fun d => bigEndian (d.take 2)) bigEndian 0 cs _
      (fun p c => (chunkEffect_fields p c).2.2.2.2.2.1) rfl (honce _ (by simp [singleTypes]))
      (fun c hc ht => by
        show bigEndian (c.data.take 2) = bigEndian c.data
        rw [take_of_length_eq c.data 2 ((hsize c hc).2.1 (Or.inr (Or.inl ht)))])
  · exact foldl_chunkEffect_valueOf (fun p => p.Vlan) TypeVLAN
      (fun d => bigEndian (d.take 2)) bigEndian 0 cs _
      (fun p c => (chunkEffect_fields p c).2.2.2.2.2.2.2.2.2.2.2.2) rfl
      (honce _ (by simp [singleTypes]))
      (fun c hc ht => by
        show bigEndian (c.data.take 2) = bigEndian c.data
        rw [take_of_length_eq c.data 2 ((hsize c hc).2.1 (Or.inr (Or.inr ht)))])
  · exact foldl_chunkEffect_valueOf (fun p => p.Timestamp) TypeTimestamp
      (fun d => bigEndian (d.take 8)) bigEndian 0 cs _
      (fun p c => (chunkEffect_fields p c).2.2.2.2.2.2.1) rfl (honce _ (by simp [singleTypes]))
      (fun c hc ht => by
        show bigEndian (c.data.take 8) = bigEndian c.data
        rw [take_of_length_eq c.data 8 ((hsize c hc).2.2.1 ht)])
  · exact foldl_chunkEffect_valueOf (fun p => p.ProtoType) TypeProtocolType
      (fun d => byteAt d 0) (fun d => byteAt d 0) 0 cs _
      (fun p c => (chunkEffect_fields p c).2.2.2.2.2.2.2.1) rfl
      (honce _ (by simp [singleTypes])) (fun _ _ _ => rfl)
  · exact foldl_chunkEffect_valueOf (fun p => p.NodeID) TypeCaptureAgentID
      (fun d => bigEndian (d.take 4)) bigEndian 0 cs _
      (fun p c => (chunkEffect_fields p c).2.2.2.2.2.2.2.2.1) rfl
      (honce _ (by simp [singleTypes]))
      (fun c hc ht => by
        show bigEndian (c.data.take 4) = bigEndian c.data
        rw [take_of_length_eq c.data 4 ((hsize c hc).2.2.2.2 ht)])
  · exact foldl_chunkEffect_valueOf (fun p => p.Payload) TypePayload
      (fun d => d) (fun d => d) [] cs _
      (fun p c => (chunkEffect_fields p c).2.2.2.2.2.2.2.2.2.2.1) rfl
      (honce _ (by simp [singleTypes])) (fun _ _ _ => rfl)
  · exact foldl_chunkEffect_valueOf (fun p => p.CID) TypeCorrelationID
      (fun d => d) (fun d => d) [] cs _
      (fun p c => (chunkEffect_fields p c).2.2.2.2.2.2.2.2.2.2.2.1) rfl
      (honce _ (by simp [singleTypes])) (fun _ _ _ => rfl)

theorem DecodeHEP_v3_fields_witness :
    ∃ p, DecodeHEP (encodeHEPv3 3 0 0 0 testChunksV3) = .ok p
      ∧ p.Version = 3
      ∧ p.SrcIP = "192.168.1.1"
      ∧ p.DstIP = "192.168.1.2"
      ∧ p.SrcPort = 5060
      ∧ p.DstPort = 5060
      ∧ p.Vlan = 0
      ∧ p.Timestamp = 0
      ∧ p.ProtoType = 1
      ∧ p.NodeID = 2001
      ∧ p.Payload = [84, 69, 83, 84]
      ∧ p.CID = [] :=
  DecodeHEP_v3_fields 0 0 0 testChunksV3 (by decide) (by decide) (by decide) (by decide)
    (by decide)

/-- C9: the field statement asks `DecodeHEP` to succeed on every well-formed version-3
buffer in which each of the ten listed chunk types occurs at most once with the data
size of the codec table. This 96-byte buffer is the wire form of the chunk list of
`TestHEPv3Decode` with the data of the IP-family chunk (type 0x0001, not one of the
ten) left empty: every chunk fits its header fields, the total length is stamped, each
listed type occurs at most once with its table size, and the decoder panics at
`chunk.Data[0]` of the family chunk instead of returning the fields. -/
theorem DecodeHEP_v3_fields_empty_family_panics :
    (∀ c ∈ emptyFamilyChunksV3, c.framed)
      ∧ (∀ c ∈ emptyFamilyChunksV3, c.listedSized)
      ∧ (∀ t ∈ singleTypes, countType t emptyFamilyChunksV3 ≤ 1)
      ∧ (encodeHEPv3 3 0 0 0 emptyFamilyChunksV3).length = 96
      ∧ (encodeHEPv3 3 0 0 0 emptyFamilyChunksV3).take 12
          = [3, 0, 0, 0, 0, 96, 0, 0, 0, 1, 0, 6]
      ∧ DecodeHEP (encodeHEPv3 3 0 0 0 emptyFamilyChunksV3) = .error .runtimePanic := by
  refine ⟨by decide, by decide, by decide, by decide, by decide, by decide⟩

/-- C10, counterexample: a 16-byte version-3 buffer whose total-length field holds
26 = 16 + 10 is rejected with `ErrPacketTooShort`, not with `ErrInvalidChunk`. -/
theorem DecodeHEP_v3_truncated_too_short :
    truncatedPacketV3.head? = some 3
      ∧ 6 ≤ truncatedPacketV3.length
      ∧ bigEndian (sub truncatedPacketV3 4 6) = truncatedPacketV3.length + 10
      ∧ DecodeHEP truncatedPacketV3 = .error .ErrPacketTooShort
      ∧ DecodeHEP truncatedPacketV3 ≠ .error .ErrInvalidChunk := by
  decide

/-- C10, as amended: for every buffer of at least six bytes that starts with the byte 3
and whose big-endian total-length field at bytes 4-5 is greater than the length of the
buffer, `DecodeHEP` returns `ErrPacketTooShort`. -/
theorem DecodeHEP_v3_declared_length (B : List Byte) (h0 : B.head? = some 3)
    (hlen : 6 ≤ B.length) (hdecl : B.length < bigEndian (sub B 4 6)) :
    DecodeHEP B = .error .ErrPacketTooShort := by
  have e1 : ¬ B.length < 6 := by omega
  rw [DecodeHEP_v3 B h0 (by omega)]
  simp only [decodeHEPv3, if_neg e1, index_of_head B 3 h0, slice_of_le B 4 6 (by omega) hlen,
    ok_bind, Uint16_of_length _ (length_sub B 4 6 hlen)]
  rw [if_pos hdecl]

theorem DecodeHEP_v3_declared_length_witness :
    DecodeHEP truncatedPacketV3 = .error .ErrPacketTooShort :=
  DecodeHEP_v3_declared_length truncatedPacketV3 rfl (by decide) (by decide)

/-! ## The loop fuel is never used up -/

theorem bind_ne_error {α β : Type} (x : Except Failure α) (f : α → Except Failure β)
    (e : Failure) (hx : x ≠ .error e) (hf : ∀ a, f a ≠ .error e) :
    (x >>= f) ≠ .error e := by
  cases x with
  | error e' =>
    intro h
    have h2 : e' = e := Except.error.inj h
    exact hx (by rw [h2])
  | ok a => exact hf a

theorem ite_ne_error {α : Type} (c : Prop) [Decidable c] (x y : Except Failure α)
    (e : Failure) (hx : x ≠ .error e) (hy : y ≠ .error e) :
    (if c then x else y) ≠ .error e := by
  by_cases h : c
  · rw [if_pos h]; exact hx
  · rw [if_neg h]; exact hy

theorem index_ne_fuelExhausted (data : List Byte) (i : Nat) :
    index data i ≠ .error .fuelExhausted := by
  unfold index
  cases data.get? i <;> simp

theorem slice_ne_fuelExhausted (data : List Byte) (lo hi : Nat) :
    slice data lo hi ≠ .error .fuelExhausted := by
  unfold slice
  split_ifs <;> simp

theorem Uint16_ne_fuelExhausted (b : List Byte) : Uint16 b ≠ .error .fuelExhausted := by
  unfold Uint16
  split <;> simp

theorem Uint32_ne_fuelExhausted (b : List Byte) : Uint32 b ≠ .error .fuelExhausted := by
  unfold Uint32
  split <;> simp

theorem Uint64_ne_fuelExhausted (b : List Byte) : Uint64 b ≠ .error .fuelExhausted := by
  unfold Uint64
  split <;> simp

theorem pure_ne_error {α : Type} (a : α) (e : Failure) :
    (pure a : Except Failure α) ≠ .error e := by
  intro h
  exact Except.noConfusion h

theorem chunkSwitch_ne_fuelExhausted (p : HEPPacket) (c : hepChunk) :
    chunkSwitch p c ≠ .error .fuelExhausted := by
  unfold chunkSwitch
  repeat' first
    | exact pure_ne_error _ _
    | exact index_ne_fuelExhausted _ _
    | exact Uint16_ne_fuelExhausted _
    | exact Uint32_ne_fuelExhausted _
    | exact Uint64_ne_fuelExhausted _
    | apply ite_ne_error
    | apply bind_ne_error
    | intro _

theorem decodeHEPv3Loop_ne_fuelExhausted (fuel : Nat) :
    ∀ (data : List Byte) (cursor : Nat) (p : HEPPacket), data.length ≤ fuel + cursor →
      decodeHEPv3Loop fuel data cursor p ≠ .error .fuelExhausted := by
  induction fuel with
  | zero =>
    intro data cursor p h
    have hc : ¬ cursor < data.length := by omega
    simp [decodeHEPv3Loop, hc]
  | succ fuel ih =>
    intro data cursor p h
    rw [decodeHEPv3Loop]
    split_ifs with h1 h2
    · simp
    · refine bind_ne_error _ _ _
        (bind_ne_error _ _ _ (slice_ne_fuelExhausted _ _ _) (fun _ => Uint16_ne_fuelExhausted _))
        (fun vendorID => ?_)
      refine bind_ne_error _ _ _
        (bind_ne_error _ _ _ (slice_ne_fuelExhausted _ _ _) (fun _ => Uint16_ne_fuelExhausted _))
        (fun chunkType => ?_)
      refine bind_ne_error _ _ _
        (bind_ne_error _ _ _ (slice_ne_fuelExhausted _ _ _) (fun _ => Uint16_ne_fuelExhausted _))
        (fun length => ?_)
      show (if cursor + 6 + subUint16 length 6 > data.length then _ else _) ≠ _
      split_ifs with h3
      · simp
      · refine bind_ne_error _ _ _ (slice_ne_fuelExhausted _ _ _) (fun chunkData => ?_)
        refine bind_ne_error _ _ _ (chunkSwitch_ne_fuelExhausted _ _) (fun packet => ?_)
        exact ih data _ packet (by omega)
    · simp

theorem decodeHEPv1_ne_fuelExhausted (data : List Byte) :
    decodeHEPv1 data ≠ .error .fuelExhausted := by
  unfold decodeHEPv1
  split_ifs
  · simp
  · refine bind_ne_error _ _ _ (index_ne_fuelExhausted _ _) (fun _ => ?_)
    refine bind_ne_error _ _ _
      (bind_ne_error _ _ _ (slice_ne_fuelExhausted _ _ _) (fun _ => Uint16_ne_fuelExhausted _))
      (fun _ => ?_)
    refine bind_ne_error _ _ _
      (bind_ne_error _ _ _ (slice_ne_fuelExhausted _ _ _) (fun _ => Uint16_ne_fuelExhausted _))
      (fun _ => ?_)
    refine bind_ne_error _ _ _ (slice_ne_fuelExhausted _ _ _) (fun _ => ?_)
    refine bind_ne_error _ _ _ (slice_ne_fuelExhausted _ _ _) (fun _ => ?_)
    refine bind_ne_error _ _ _
      (bind_ne_error _ _ _ (slice_ne_fuelExhausted _ _ _) (fun _ => Uint32_ne_fuelExhausted _))
      (fun _ => ?_)
    refine bind_ne_error _ _ _
      (bind_ne_error _ _ _ (slice_ne_fuelExhausted _ _ _) (fun _ => Uint32_ne_fuelExhausted _))
      (fun _ => ?_)
    refine bind_ne_error _ _ _ (by unfold sliceFrom; split_ifs <;> simp) (fun _ => ?_)
    exact pure_ne_error _ _

theorem decodeHEPv2_ne_fuelExhausted (data : List Byte) :
    decodeHEPv2 data ≠ .error .fuelExhausted := by
  unfold decodeHEPv2
  split_ifs
  · simp
  · refine bind_ne_error _ _ _ (index_ne_fuelExhausted _ _) (fun _ => ?_)
    refine bind_ne_error _ _ _ (index_ne_fuelExhausted _ _) (fun _ => ?_)
    refine bind_ne_error _ _ _
      (bind_ne_error _ _ _ (slice_ne_fuelExhausted _ _ _) (fun _ => Uint16_ne_fuelExhausted _))
      (fun _ => ?_)
    refine bind_ne_error _ _ _
      (bind_ne_error _ _ _ (slice_ne_fuelExhausted _ _ _) (fun _ => Uint16_ne_fuelExhausted _))
      (fun _ => ?_)
    refine bind_ne_error _ _ _ (slice_ne_fuelExhausted _ _ _) (fun _ => ?_)
    refine bind_ne_error _ _ _ (slice_ne_fuelExhausted _ _ _) (fun _ => ?_)
    refine bind_ne_error _ _ _
      (bind_ne_error _ _ _ (slice_ne_fuelExhausted _ _ _) (fun _ => Uint32_ne_fuelExhausted _))
      (fun _ => ?_)
    refine bind_ne_error _ _ _
      (bind_ne_error _ _ _ (slice_ne_fuelExhausted _ _ _) (fun _ => Uint32_ne_fuelExhausted _))
      (fun _ => ?_)
    refine bind_ne_error _ _ _ (index_ne_fuelExhausted _ _) (fun _ => ?_)
    refine bind_ne_error _ _ _ (by unfold sliceFrom; split_ifs <;> simp) (fun _ => ?_)
    exact pure_ne_error _ _

theorem decodeHEPv3_ne_fuelExhausted (data : List Byte) :
    decodeHEPv3 data ≠ .error .fuelExhausted := by
  unfold decodeHEPv3
  split_ifs
  · simp
  · refine bind_ne_error _ _ _ (index_ne_fuelExhausted _ _) (fun _ => ?_)
    refine bind_ne_error _ _ _
      (bind_ne_error _ _ _ (slice_ne_fuelExhausted _ _ _) (fun _ => Uint16_ne_fuelExhausted _))
      (fun length => ?_)
    show (if length > data.length then _ else _) ≠ _
    split_ifs
    · simp
    · exact decodeHEPv3Loop_ne_fuelExhausted _ _ _ _ (by omega)

/-- The fuel that `decodeHEPv3` gives to its loop is never used up: `DecodeHEP` does not
return `Failure.fuelExhausted` on any buffer. -/
theorem DecodeHEP_ne_fuelExhausted (data : List Byte) :
    DecodeHEP data ≠ .error .fuelExhausted := by
  unfold DecodeHEP
  split_ifs
  · simp
  · refine bind_ne_error _ _ _ (index_ne_fuelExhausted _ _) (fun version => ?_)
    show (if version.val = HEPv3 then _ else _) ≠ _
    split_ifs
    · exact decodeHEPv3_ne_fuelExhausted data
    · exact decodeHEPv2_ne_fuelExhausted data
    · exact decodeHEPv1_ne_fuelExhausted data
    · simp

/-! ## HEP v3: malformed chunks -/

theorem decodeHEPv3Loop_of_ge (fuel : Nat) (data : List Byte) (cursor : Nat) (p : HEPPacket)
    (h : data.length ≤ cursor) : decodeHEPv3Loop fuel data cursor p = .ok p := by
  have hc : ¬ cursor < data.length := by omega
  cases fuel with
  | zero => rw [decodeHEPv3Loop, if_neg hc]
  | succ fuel => rw [decodeHEPv3Loop, if_neg hc]

theorem decodeHEPv3Loop_short_header (fuel : Nat) (data : List Byte) (cursor : Nat)
    (p : HEPPacket) (h1 : cursor < data.length) (h2 : data.length < cursor + 6) :
    decodeHEPv3Loop (fuel + 1) data cursor p = .error .ErrInvalidChunk := by
  have c2 : cursor + 6 > data.length := by omega
  rw [decodeHEPv3Loop, if_pos h1, if_pos c2]

theorem decodeHEPv3Loop_header (fuel : Nat) (pre rest : List Byte)
    (v0 v1 t0 t1 l0 l1 : Byte) (p : HEPPacket) :
    decodeHEPv3Loop (fuel + 1) (pre ++ ([v0, v1, t0, t1, l0, l1] ++ rest)) pre.length p =
      if pre.length + 6 + subUint16 (l0.val * 256 + l1.val) 6
          > (pre ++ ([v0, v1, t0, t1, l0, l1] ++ rest)).length then
        .error .ErrInvalidChunk
      else
        slice (pre ++ ([v0, v1, t0, t1, l0, l1] ++ rest)) (pre.length + 6)
            (pre.length + 6 + subUint16 (l0.val * 256 + l1.val) 6) >>= fun chunkData =>
          chunkSwitch p
            { VendorID := v0.val * 256 + v1.val, ChunkType := t0.val * 256 + t1.val,
              Length := l0.val * 256 + l1.val, Data := chunkData } >>= fun packet =>
          decodeHEPv3Loop fuel (pre ++ ([v0, v1, t0, t1, l0, l1] ++ rest))
            (pre.length + 6 + subUint16 (l0.val * 256 + l1.val) 6) packet := by
  generalize hdata : pre ++ ([v0, v1, t0, t1, l0, l1] ++ rest) = data
  have hlen : data.length = pre.length + 6 + rest.length := by
    subst hdata; simp; omega
  have s1 : slice data pre.length (pre.length + 2) = .ok [v0, v1] :=
    slice_at data pre [v0, v1] ([t0, t1, l0, l1] ++ rest) _ _ (by subst hdata; rfl) rfl rfl
  have s2 : slice data (pre.length + 2) (pre.length + 4) = .ok [t0, t1] :=
    slice_at data (pre ++ [v0, v1]) [t0, t1] ([l0, l1] ++ rest) _ _
      (by subst hdata; simp) (by simp) (by simp)
  have s3 : slice data (pre.length + 4) (pre.length + 6) = .ok [l0, l1] :=
    slice_at data (pre ++ [v0, v1, t0, t1]) [l0, l1] rest _ _
      (by subst hdata; simp) (by simp) (by simp)
  have u : ∀ a b : Byte, Uint16 [a, b] = .ok (a.val * 256 + b.val) := fun _ _ => rfl
  have c1 : pre.length < data.length := by omega
  have c2 : ¬ pre.length + 6 > data.length := by omega
  rw [decodeHEPv3Loop, if_pos c1, if_neg c2]
  simp only [s1, s2, s3, ok_bind, u]

theorem decodeHEPv3Loop_prefix (cs : List Chunk) :
    ∀ (fuel : Nat) (pre tail : List Byte) (p : HEPPacket), (∀ c ∈ cs, c.framed) →
      decodeHEPv3Loop (cs.length + fuel) (pre ++ (encodeChunks cs ++ tail)) pre.length p =
        match applyChunks p cs with
        | .ok p' =>
            decodeHEPv3Loop fuel (pre ++ (encodeChunks cs ++ tail))
              (pre.length + (encodeChunks cs).length) p'
        | .error e => .error e := by
  induction cs with
  | nil =>
    intro fuel pre tail p _
    simp [encodeChunks, applyChunks]
  | cons c cs ih =>
    intro fuel pre tail p hcs
    have hc : c.framed := hcs c (List.mem_cons_self _ _)
    have hrest : ∀ c' ∈ cs, c'.framed := fun c' h => hcs c' (List.mem_cons_of_mem _ h)
    have hfuel : (c :: cs).length + fuel = (cs.length + fuel) + 1 := by
      simp only [List.length_cons]; omega
    have hdata : pre ++ (encodeChunks (c :: cs) ++ tail)
        = pre ++ (encodeChunk c ++ (encodeChunks cs ++ tail)) := by
      simp [encodeChunks, List.append_assoc]
    rw [hfuel, hdata, decodeHEPv3Loop_step (cs.length + fuel) pre (encodeChunks cs ++ tail) c p hc]
    simp only [applyChunks]
    cases chunkSwitch p c.toHep with
    | error e => rfl
    | ok p1 =>
      have h := ih fuel (pre ++ encodeChunk c) tail p1 hrest
      have hd2 : pre ++ encodeChunk c ++ (encodeChunks cs ++ tail)
          = pre ++ (encodeChunk c ++ (encodeChunks cs ++ tail)) := by
        simp [List.append_assoc]
      have hl2 : (pre ++ encodeChunk c).length = pre.length + (6 + c.data.length) := by
        simp [length_encodeChunk]
      rw [hd2, hl2] at h
      simp only []
      rw [h]
      have hl3 : pre.length + (6 + c.data.length) + (encodeChunks cs).length
          = pre.length + (encodeChunks (c :: cs)).length := by
        simp [encodeChunks, length_encodeChunk]; omega
      rw [hl3]

theorem DecodeHEP_v3Buffer (b1 b2 b3 : Byte) (declared : Nat) (body : List Byte)
    (h16 : declared < 65536) (hdecl : declared ≤ 6 + body.length) :
    DecodeHEP (v3Buffer b1 b2 b3 declared body)
      = decodeHEPv3Loop (6 + body.length) (v3Buffer b1 b2 b3 declared body) 6
          { HEPPacket.zero with Version := 3 } := by
  generalize hdata : v3Buffer b1 b2 b3 declared body = data
  have hlen : data.length = 6 + body.length := by
    subst hdata; simp [v3Buffer, length_be16]; omega
  have e1 : ¬ data.length < 6 := by omega
  have i0 : index data 0 = .ok 3 := by subst hdata; rfl
  have s1 : slice data 4 6 = .ok (be16 declared) :=
    slice_at data [3, b1, b2, b3] _ body 4 6 (by subst hdata; rfl) rfl rfl
  have e2 : ¬ declared > data.length := by omega
  rw [DecodeHEP_v3 data (by subst hdata; rfl) (by omega)]
  simp only [decodeHEPv3, if_neg e1, i0, s1, ok_bind, Uint16_be16 _ h16, if_neg e2]
  rw [hlen]
  rfl

theorem DecodeHEP_v3_wrapped_length (d : List Byte) (hd : d.length = 65530) :
    DecodeHEP ([3, 0, 0, 0, 0, 6] ++ ([0, 0, 0, 15, 0, 0] ++ d))
      = .ok { HEPPacket.zero with Version := 3, Payload := d } := by
  have h0 := DecodeHEP_v3Buffer 0 0 0 6 ([0, 0, 0, 15, 0, 0] ++ d) (by omega)
    (by simp)
  have hb : v3Buffer 0 0 0 6 ([0, 0, 0, 15, 0, 0] ++ d)
      = [3, 0, 0, 0, 0, 6] ++ ([0, 0, 0, 15, 0, 0] ++ d) := rfl
  rw [hb] at h0
  rw [h0]
  have hfuel : 6 + ([0, 0, 0, 15, 0, 0] ++ d).length = 65541 + 1 := by
    simp [hd]
  have hw : subUint16 ((0 : Byte).val * 256 + (0 : Byte).val) 6 = 65530 := by
    unfold subUint16; rfl
  have hstep := decodeHEPv3Loop_header 65541 [3, 0, 0, 0, 0, 6] d 0 0 0 15 0 0
    { HEPPacket.zero with Version := 3 }
  rw [hw] at hstep
  have hl : ([3, 0, 0, 0, 0, 6] ++ ([0, 0, 0, 15, 0, 0] ++ d) : List Byte).length = 65542 := by
    simp [hd]
  have hpre : ([3, 0, 0, 0, 0, 6] : List Byte).length = 6 := rfl
  rw [hfuel, ← hpre, hstep, hl, hpre]
  have c3 : ¬ 6 + 6 + 65530 > 65542 := by omega
  have s4 : slice ([3, 0, 0, 0, 0, 6] ++ ([0, 0, 0, 15, 0, 0] ++ d)) (6 + 6) (6 + 6 + 65530)
      = .ok d :=
    slice_at _ [3, 0, 0, 0, 0, 6, 0, 0, 0, 15, 0, 0] d [] _ _ (by simp) rfl (by rw [hd])
  rw [if_neg c3, s4, ok_bind]
  have hsw : chunkSwitch { HEPPacket.zero with Version := 3 }
      { VendorID := (0 : Byte).val * 256 + (0 : Byte).val,
        ChunkType := (0 : Byte).val * 256 + (15 : Byte).val,
        Length := (0 : Byte).val * 256 + (0 : Byte).val, Data := d }
      = .ok { HEPPacket.zero with Version := 3, Payload := d } := rfl
  rw [hsw, ok_bind]
  exact decodeHEPv3Loop_of_ge _ _ _ _ (by rw [hl])

theorem decodeHEPv3Loop_malformedChunk (fuel : Nat) (pre tail : List Byte) (p : HEPPacket)
    (hsmall : tail.length < 65536) (hbad : malformedChunk tail) :
    decodeHEPv3Loop (fuel + 1) (pre ++ tail) pre.length p = .error .ErrInvalidChunk := by
  rcases hbad with ⟨h1, h2⟩ | ⟨h6, hL⟩
  · exact decodeHEPv3Loop_short_header fuel _ _ p (by simp; omega) (by simp; omega)
  · match tail, h6 with
    | v0 :: v1 :: t0 :: t1 :: l0 :: l1 :: rest, _ =>
      have hbe : bigEndian (sub (v0 :: v1 :: t0 :: t1 :: l0 :: l1 :: rest) 4 6)
          = l0.val * 256 + l1.val := by
        simp [sub, bigEndian]
      rw [hbe] at hL
      have hl0 : l0.val < 256 := l0.isLt
      have hl1 : l1.val < 256 := l1.isLt
      have hlen : (v0 :: v1 :: t0 :: t1 :: l0 :: l1 :: rest).length = rest.length + 6 := by
        simp
      rw [hlen] at hsmall hL
      have hw : rest.length < subUint16 (l0.val * 256 + l1.val) 6 := by
        unfold subUint16
        omega
      have hstep := decodeHEPv3Loop_header fuel pre rest v0 v1 t0 t1 l0 l1 p
      have hd : pre ++ (v0 :: v1 :: t0 :: t1 :: l0 :: l1 :: rest)
          = pre ++ ([v0, v1, t0, t1, l0, l1] ++ rest) := rfl
      have hl2 : (pre ++ ([v0, v1, t0, t1, l0, l1] ++ rest)).length
          = pre.length + 6 + rest.length := by
        simp; omega
      rw [hd, hstep, hl2, if_pos (by omega)]

theorem DecodeHEP_v3_first_malformed (b1 b2 b3 : Byte) (declared : Nat) (cs : List Chunk)
    (tail : List Byte) (h16 : declared < 65536)
    (hdecl : declared ≤ 6 + (encodeChunks cs ++ tail).length)
    (hwf : ∀ c ∈ cs, c.wellFormed) (hsmall : tail.length < 65536)
    (hbad : malformedChunk tail) :
    DecodeHEP (v3Buffer b1 b2 b3 declared (encodeChunks cs ++ tail))
      = .error .ErrInvalidChunk := by
  rw [DecodeHEP_v3Buffer b1 b2 b3 declared _ h16 hdecl]
  have hpos : 0 < tail.length := by
    rcases hbad with ⟨h, _⟩ | ⟨h, _⟩ <;> omega
  obtain ⟨k, hk⟩ : ∃ k, 6 + (encodeChunks cs ++ tail).length = cs.length + (k + 1) := by
    have := length_le_length_encodeChunks cs
    refine ⟨6 + (encodeChunks cs ++ tail).length - cs.length - 1, ?_⟩
    simp only [List.length_append]
    omega
  have hb : v3Buffer b1 b2 b3 declared (encodeChunks cs ++ tail)
      = ([3, b1, b2, b3] ++ be16 declared) ++ (encodeChunks cs ++ tail) := by
    simp [v3Buffer]
  have hpre : ([3, b1, b2, b3] ++ be16 declared).length = 6 := rfl
  have h := decodeHEPv3Loop_prefix cs (k + 1) ([3, b1, b2, b3] ++ be16 declared) tail
    { HEPPacket.zero with Version := 3 } (fun c hc => (hwf c hc).1)
  rw [hpre] at h
  rw [hk, hb, h, applyChunks_eq_foldl cs _ fun c hc => (hwf c hc).2]
  simp only []
  have hd : ([3, b1, b2, b3] ++ be16 declared) ++ (encodeChunks cs ++ tail)
      = (([3, b1, b2, b3] ++ be16 declared) ++ encodeChunks cs) ++ tail := by
    simp [List.append_assoc]
  have hl : (([3, b1, b2, b3] ++ be16 declared) ++ encodeChunks cs).length
      = 6 + (encodeChunks cs).length := by
    rw [List.length_append, hpre]
  rw [hd, ← hl]
  exact decodeHEPv3Loop_malformedChunk k _ tail _ hsmall hbad

/-- C11: the specification wants a chunk whose length field is below 6 to be rejected
with `ErrInvalidChunk` in a buffer of any length. In this 65542-byte buffer the only
chunk has the length field 0; the 16-bit subtraction `chunk.Length-6` wraps around to
65530, the bounds check passes, and the decoder accepts the chunk with a data area of
65530 bytes, which it stores as the payload. -/
theorem DecodeHEP_v3_wrapped_length_accepted :
    wrapPacket.length = 65542
      ∧ DecodeHEP wrapPacket
          = .ok { HEPPacket.zero with Version := 3, Payload := List.replicate 65530 0 } :=
  ⟨by rw [wrapPacket, List.length_append, List.length_append, List.length_replicate]; rfl,
   DecodeHEP_v3_wrapped_length (List.replicate 65530 0) (List.length_replicate _ _)⟩

/-! ## HEP v3: unknown and duplicate chunks -/

theorem chunkSwitch_of_not_mem (p : HEPPacket) (c : hepChunk)
    (h : c.ChunkType ∉ switchTypes) : chunkSwitch p c = .ok p := by
  simp only [switchTypes, List.mem_cons, List.mem_singleton, not_or, List.not_mem_nil,
    or_false] at h
  obtain ⟨h1, h2, h3, h4, h5, h6, h7, h8, h9, h10, h11⟩ := h
  unfold chunkSwitch
  rw [if_neg h1, if_neg h2, if_neg h3, if_neg h4, if_neg h5, if_neg h6, if_neg h7, if_neg h8,
    if_neg h9, if_neg h10, if_neg h11]
  rfl

theorem not_mem_switchTypes_of_not_mem_codecTableTypes (t : Nat)
    (h : t ∉ codecTableTypes) : t ∉ switchTypes := by
  intro hm
  apply h
  simp only [switchTypes, codecTableTypes, List.mem_cons, List.mem_singleton,
    List.not_mem_nil, or_false] at hm ⊢
  tauto

theorem applyChunks_append (cs1 : List Chunk) :
    ∀ (cs2 : List Chunk) (p : HEPPacket),
      applyChunks p (cs1 ++ cs2) =
        match applyChunks p cs1 with
        | .ok p' => applyChunks p' cs2
        | .error e => .error e := by
  induction cs1 with
  | nil => intro cs2 p; rfl
  | cons c cs1 ih =>
    intro cs2 p
    simp only [List.cons_append, applyChunks]
    cases chunkSwitch p c.toHep with
    | error e => rfl
    | ok p1 => exact ih cs2 p1

theorem applyChunks_insert_skipped (cs1 cs2 : List Chunk) (c : Chunk) (p : HEPPacket)
    (h : c.ctype ∉ switchTypes) :
    applyChunks p (cs1 ++ c :: cs2) = applyChunks p (cs1 ++ cs2) := by
  rw [applyChunks_append, applyChunks_append]
  cases applyChunks p cs1 with
  | error e => rfl
  | ok p1 =>
    simp only [applyChunks]
    rw [chunkSwitch_of_not_mem p1 c.toHep h]

theorem length_encodeChunks_append (cs1 cs2 : List Chunk) :
    (encodeChunks (cs1 ++ cs2)).length = (encodeChunks cs1).length + (encodeChunks cs2).length := by
  induction cs1 with
  | nil => simp [encodeChunks]
  | cons c cs1 ih =>
    have h : encodeChunks ((c :: cs1) ++ cs2) = encodeChunk c ++ encodeChunks (cs1 ++ cs2) :=
      rfl
    rw [h, List.length_append, ih]
    simp only [encodeChunks, List.length_append]
    omega

/-- C12: a chunk whose type is not listed in the codec table is skipped. If the wire
form of the chunk sequence `cs1 ++ cs2` decodes to the packet `P`, then the wire form of
`cs1 ++ c :: cs2`, in which a framed chunk `c` of an unlisted type has been inserted at
the chunk boundary between `cs1` and `cs2` and the total length has been stamped anew,
decodes to the same packet `P`. -/
theorem DecodeHEP_v3_unknown_chunk_skipped (b1 b2 b3 : Byte) (cs1 cs2 : List Chunk)
    (c : Chunk) (P : HEPPacket)
    (hframed : ∀ x ∈ cs1 ++ cs2, x.framed) (hc : c.framed)
    (hunknown : c.ctype ∉ codecTableTypes)
    (htotal : 6 + (encodeChunks (cs1 ++ c :: cs2)).length < 65536)
    (hP : DecodeHEP (encodeHEPv3 3 b1 b2 b3 (cs1 ++ cs2)) = .ok P) :
    DecodeHEP (encodeHEPv3 3 b1 b2 b3 (cs1 ++ c :: cs2)) = .ok P := by
  have hframed2 : ∀ x ∈ cs1 ++ c :: cs2, x.framed := by
    intro x hx
    rcases List.mem_append.mp hx with h | h
    · exact hframed x (List.mem_append.mpr (Or.inl h))
    · rcases List.mem_cons.mp h with h | h
      · rw [h]; exact hc
      · exact hframed x (List.mem_append.mpr (Or.inr h))
  have htotal1 : 6 + (encodeChunks (cs1 ++ cs2)).length < 65536 := by
    rw [length_encodeChunks_append] at htotal ⊢
    simp only [encodeChunks, List.length_append] at htotal
    omega
  rw [DecodeHEP_encodeHEPv3 b1 b2 b3 _ hframed htotal1] at hP
  rw [DecodeHEP_encodeHEPv3 b1 b2 b3 _ hframed2 htotal,
    applyChunks_insert_skipped cs1 cs2 c _
      (not_mem_switchTypes_of_not_mem_codecTableTypes _ hunknown)]
  exact hP

theorem DecodeHEP_v3_unknown_chunk_skipped_witness :
    DecodeHEP (encodeHEPv3 3 0 0 0
        (testChunksV3.take 3 ++ ⟨0, 0x9999, [1, 2, 3]⟩ :: testChunksV3.drop 3)) = .ok
      { Version := 3, Protocol := 2, SrcIP := "192.168.1.1", DstIP := "192.168.1.2",
        SrcPort := 5060, DstPort := 5060, Timestamp := 0, ProtoType := 1, NodeID := 2001,
        NodeName := "", Payload := [84, 69, 83, 84], CID := [], Vlan := 0 } :=
  DecodeHEP_v3_unknown_chunk_skipped 0 0 0 (testChunksV3.take 3) (testChunksV3.drop 3)
    ⟨0, 0x9999, [1, 2, 3]⟩ _ (by decide) (by decide) (by decide) (by decide) (by decide)

theorem HEPPacket_eq_of_fields (p q : HEPPacket) (h1 : p.Version = q.Version)
    (h2 : p.Protocol = q.Protocol) (h3 : p.SrcIP = q.SrcIP) (h4 : p.DstIP = q.DstIP)
    (h5 : p.SrcPort = q.SrcPort) (h6 : p.DstPort = q.DstPort)
    (h7 : p.Timestamp = q.Timestamp) (h8 : p.ProtoType = q.ProtoType)
    (h9 : p.NodeID = q.NodeID) (h10 : p.NodeName = q.NodeName)
    (h11 : p.Payload = q.Payload) (h12 : p.CID = q.CID) (h13 : p.Vlan = q.Vlan) :
    p = q := by
  cases p
  cases q
  simp only [HEPPacket.mk.injEq]
  exact ⟨h1, h2, h3, h4, h5, h6, h7, h8, h9, h10, h11, h12, h13⟩

theorem foldl_chunkEffect_NodeName (cs : List Chunk) :
    ∀ p : HEPPacket, (cs.foldl chunkEffect p).NodeName = p.NodeName := by
  induction cs with
  | nil => intro p; rfl
  | cons c cs ih =>
    intro p
    simp only [List.foldl_cons]
    rw [ih]
    exact (chunkEffect_fields p c).2.2.2.2.2.2.2.2.2.1

theorem foldl_chunkEffect_eq_lastWriterPacket (cs : List Chunk) :
    cs.foldl chunkEffect { HEPPacket.zero with Version := 3 } = lastWriterPacket cs := by
  apply HEPPacket_eq_of_fields
  · exact foldl_chunkEffect_Version cs _
  · exact foldl_chunkEffect_field (fun p => p.Protocol) TypeIPProtocolFamily
      (fun d => byteAt d 0)
      (fun p c => (chunkEffect_fields p c).2.1) cs _
  · exact foldl_chunkEffect_field (fun p => p.SrcIP) TypeIPSourceIP
      ipString
      (fun p c => (chunkEffect_fields p c).2.2.1) cs _
  · exact foldl_chunkEffect_field (fun p => p.DstIP) TypeIPDestinationIP
      ipString
      (fun p c => (chunkEffect_fields p c).2.2.2.1) cs _
  · exact foldl_chunkEffect_field (fun p => p.SrcPort) TypeIPSourcePort
      (fun d => bigEndian (d.take 2))
      (fun p c => (chunkEffect_fields p c).2.2.2.2.1) cs _
  · exact foldl_chunkEffect_field (fun p => p.DstPort) TypeIPDestinationPort
      (fun d => bigEndian (d.take 2))
      (fun p c => (chunkEffect_fields p c).2.2.2.2.2.1) cs _
  · exact foldl_chunkEffect_field (fun p => p.Timestamp) TypeTimestamp
      (fun d => bigEndian (d.take 8))
      (fun p c => (chunkEffect_fields p c).2.2.2.2.2.2.1) cs _
  · exact foldl_chunkEffect_field (fun p => p.ProtoType) TypeProtocolType
      (fun d => byteAt d 0)
      (fun p c => (chunkEffect_fields p c).2.2.2.2.2.2.2.1) cs _
  · exact foldl_chunkEffect_field (fun p => p.NodeID) TypeCaptureAgentID
      (fun d => bigEndian (d.take 4))
      (fun p c => (chunkEffect_fields p c).2.2.2.2.2.2.2.2.1) cs _
  · exact foldl_chunkEffect_NodeName cs _
  · exact foldl_chunkEffect_field (fun p => p.Payload) TypePayload
      (fun d => d)
      (fun p c => (chunkEffect_fields p c).2.2.2.2.2.2.2.2.2.2.1) cs _
  · exact foldl_chunkEffect_field (fun p => p.CID) TypeCorrelationID
      (fun d => d)
      (fun p c => (chunkEffect_fields p c).2.2.2.2.2.2.2.2.2.2.2.1) cs _
  · exact foldl_chunkEffect_field (fun p => p.Vlan) TypeVLAN
      (fun d => bigEndian (d.take 2))
      (fun p c => (chunkEffect_fields p c).2.2.2.2.2.2.2.2.2.2.2.2) cs _

theorem DecodeHEP_v3_last_writer_wins (b1 b2 b3 : Byte) (cs : List Chunk)
    (hwf : ∀ c ∈ cs, c.wellFormed) (htotal : 6 + (encodeChunks cs).length < 65536) :
    DecodeHEP (encodeHEPv3 3 b1 b2 b3 cs) = .ok (lastWriterPacket cs) := by
  rw [DecodeHEP_encodeHEPv3 b1 b2 b3 cs (fun c hc => (hwf c hc).1) htotal,
    applyChunks_eq_foldl cs _ fun c hc => (hwf c hc).2,
    foldl_chunkEffect_eq_lastWriterPacket]

theorem lastChunk_removeEarlier (t t' : Nat) (cs : List Chunk) :
    lastChunk t' (removeEarlier t cs) = lastChunk t' cs := by
  induction cs with
  | nil => rfl
  | cons c cs ih =>
    by_cases h : c.ctype = t ∧ (lastChunk t cs).isSome
    · simp only [removeEarlier, if_pos h, lastChunk, ih]
      cases hl : lastChunk t' cs with
      | some c' => rfl
      | none =>
        have hne : ¬ c.ctype = t' := by
          intro heq
          have ht : t' = t := heq.symm.trans h.1
          rw [ht] at hl
          have h2 := h.2
          rw [hl] at h2
          exact absurd h2 (by simp)
        simp [hne]
    · simp only [removeEarlier, if_neg h, lastChunk, ih]

theorem lastWriterPacket_removeEarlier (t : Nat) (cs : List Chunk) :
    lastWriterPacket (removeEarlier t cs) = lastWriterPacket cs := by
  simp only [lastWriterPacket, lastValue, lastChunk_removeEarlier]

theorem mem_of_mem_removeEarlier (t : Nat) (cs : List Chunk) (x : Chunk) :
    x ∈ removeEarlier t cs → x ∈ cs := by
  induction cs with
  | nil => intro h; exact h
  | cons c cs ih =>
    intro h
    by_cases hc : c.ctype = t ∧ (lastChunk t cs).isSome
    · rw [removeEarlier, if_pos hc] at h
      exact List.mem_cons_of_mem _ (ih h)
    · rw [removeEarlier, if_neg hc] at h
      rcases List.mem_cons.mp h with h | h
      · rw [h]; exact List.mem_cons_self _ _
      · exact List.mem_cons_of_mem _ (ih h)

theorem length_encodeChunks_removeEarlier (t : Nat) (cs : List Chunk) :
    (encodeChunks (removeEarlier t cs)).length ≤ (encodeChunks cs).length := by
  induction cs with
  | nil => exact Nat.le_refl _
  | cons c cs ih =>
    by_cases hc : c.ctype = t ∧ (lastChunk t cs).isSome
    · rw [removeEarlier, if_pos hc]
      simp only [encodeChunks, List.length_append]
      omega
    · rw [removeEarlier, if_neg hc]
      simp only [encodeChunks, List.length_append]
      omega

theorem lastChunk_eq_none_iff (t : Nat) (cs : List Chunk) :
    lastChunk t cs = none ↔ countType t cs = 0 := by
  induction cs with
  | nil => simp [lastChunk, countType]
  | cons x cs ih =>
    unfold countType at ih ⊢
    by_cases hx : x.ctype = t
    · rw [List.countP_cons, if_pos (by simpa using hx), lastChunk]
      cases lastChunk t cs <;> simp [hx]
    · rw [List.countP_cons, if_neg (by simpa using hx), lastChunk]
      cases hl : lastChunk t cs with
      | some c' =>
        rw [hl] at ih
        simp only [false_iff, Nat.add_zero] at ih ⊢
        exact ih
      | none =>
        rw [hl] at ih
        simp only [hx, if_false, true_iff, Nat.add_zero] at ih ⊢
        exact ih

theorem countType_removeEarlier (t : Nat) (cs : List Chunk) :
    countType t (removeEarlier t cs) ≤ 1 := by
  induction cs with
  | nil => simp [removeEarlier, countType]
  | cons c cs ih =>
    by_cases hc : c.ctype = t ∧ (lastChunk t cs).isSome
    · rw [removeEarlier, if_pos hc]
      exact ih
    · rw [removeEarlier, if_neg hc]
      by_cases hct : c.ctype = t
      · have hnone : lastChunk t cs = none := by
          cases hl : lastChunk t cs with
          | none => rfl
          | some c' => exact absurd ⟨hct, by simp [hl]⟩ hc
        have h0 : countType t (removeEarlier t cs) = 0 := by
          rw [← lastChunk_eq_none_iff, lastChunk_removeEarlier]
          exact hnone
        unfold countType at h0 ⊢
        rw [List.countP_cons, if_pos (by simpa using hct), h0]
      · unfold countType at ih ⊢
        rw [List.countP_cons, if_neg (by simpa using hct)]
        exact ih

theorem DecodeHEP_v3_removeEarlier (b1 b2 b3 : Byte) (t : Nat) (cs : List Chunk)
    (hwf : ∀ c ∈ cs, c.wellFormed) (htotal : 6 + (encodeChunks cs).length < 65536) :
    DecodeHEP (encodeHEPv3 3 b1 b2 b3 (removeEarlier t cs))
      = DecodeHEP (encodeHEPv3 3 b1 b2 b3 cs) := by
  rw [DecodeHEP_v3_last_writer_wins b1 b2 b3 cs hwf htotal,
    DecodeHEP_v3_last_writer_wins b1 b2 b3 (removeEarlier t cs)
      (fun c hc => hwf c (mem_of_mem_removeEarlier t cs c hc))
      (by have := length_encodeChunks_removeEarlier t cs; omega),
    lastWriterPacket_removeEarlier]

/-- C13: last-writer-wins is asked for every recognised chunk type, and the codec table
maps the IP-protocol chunk (type 0x0002) to `protocol`. This well-formed buffer carries
two IP-protocol chunks, 6 and then 17; it decodes to a packet whose protocol is 0, not
17, because the `switch` of `decodeHEPv3` has no case for `TypeIPProtocolID`. -/
theorem DecodeHEP_v3_duplicate_protocol_ignored :
    DecodeHEP (encodeHEPv3 3 0 0 0 duplicateProtocolChunks) = .ok
      { Version := 3, Protocol := 0, SrcIP := "", DstIP := "", SrcPort := 0, DstPort := 0,
        Timestamp := 0, ProtoType := 0, NodeID := 0, NodeName := "", Payload := [],
        CID := [], Vlan := 0 } := by
  decide

/-- C14: `DecodeHEP` is asked to return a packet or one of its three errors on every
buffer. This 12-byte version-3 buffer holds one IP-family chunk of length exactly 6;
the `switch` evaluates `chunk.Data[0]` on the empty data and the decoder panics. -/
theorem DecodeHEP_v3_empty_family_panics :
    emptyFamilyPacket = encodeHEPv3 3 0 0 0 [⟨0, TypeIPProtocolFamily, []⟩]
      ∧ DecodeHEP emptyFamilyPacket = .error .runtimePanic := by
  decide

/-! ## Configuration validation -/

theorem Validate_of_port_out_of_range (c : Config)
    (h : c.Server.Port ≤ 0 ∨ c.Server.Port > 65535) :
    c.Validate = (c, some (.invalidServerPort c.Server.Port)) := by
  unfold Config.Validate
  rw [if_pos h]

theorem Validate_of_port_in_range (c : Config)
    (h : 1 ≤ c.Server.Port ∧ c.Server.Port ≤ 65535) :
    c.Validate =
      (c.withDefaults,
        if c.Writers.Type_ = "clickhouse" then
          if c.Writers.ClickHouse.isNone then some .clickhouseConfigRequired else none
        else if c.Writers.Type_ = "elastic" then
          if c.Writers.Elastic.isNone then some .elasticConfigRequired else none
        else if c.Writers.Type_ = "multi" then
          if c.Writers.ClickHouse.isNone ∧ c.Writers.Elastic.isNone then
            some .atLeastOneWriterRequired
          else none
        else some (.unknownWriterType c.Writers.Type_)) := by
  have hp : ¬ (c.Server.Port ≤ 0 ∨ c.Server.Port > 65535) := by omega
  obtain ⟨server, writers, api, metrics⟩ := c
  obtain ⟨h1, h2, h3, h4, h5, h6, workers⟩ := server
  obtain ⟨type, batchSize, flushInterval, ch, es, pq⟩ := writers
  simp only [] at hp h
  unfold Config.Validate Config.withDefaults
  simp only [if_neg hp]
  by_cases hw : workers ≤ 0 <;> by_cases hb : batchSize ≤ 0 <;>
    by_cases hf : flushInterval ≤ 0 <;>
    simp only [hw, hb, hf, if_true, if_false, not_lt.mpr, not_le.mp, if_pos, if_neg] <;>
    split_ifs <;> first | rfl | omega

/-- C15: `Validate` returns the invalid-port error for every configuration whose server
port is `<= 0` or `> 65535`, whatever the other fields are, and never returns that
error when the port is in `[1, 65535]`. -/
theorem Validate_invalid_port (c : Config) :
    (c.Server.Port ≤ 0 ∨ c.Server.Port > 65535 →
        c.Validate.2 = some (.invalidServerPort c.Server.Port))
      ∧ (1 ≤ c.Server.Port ∧ c.Server.Port ≤ 65535 →
          ∀ p, c.Validate.2 ≠ some (.invalidServerPort p)) := by
  refine ⟨fun h => ?_, fun h p => ?_⟩
  · rw [Validate_of_port_out_of_range c h]
  · rw [Validate_of_port_in_range c h]
    simp only []
    split_ifs <;> simp

theorem Validate_invalid_port_witness :
    ({ sampleConfig with Server := { sampleConfig.Server with Port := 70000 } }
        : Config).Validate.2 = some (.invalidServerPort 70000)
      ∧ ({ sampleConfig with Server := { sampleConfig.Server with Port := 0 } }
        : Config).Validate.2 = some (.invalidServerPort 0)
      ∧ ∀ p, sampleConfig.Validate.2 ≠ some (.invalidServerPort p) :=
  ⟨(Validate_invalid_port _).1 (by decide), (Validate_invalid_port _).1 (by decide),
    (Validate_invalid_port sampleConfig).2 (by decide)⟩

/-- C16: when `Validate` returns no error, the configuration it leaves behind has
`workers >= 1`, `batch_size >= 1` and `flush_interval > 0`; each of the three is the
input value if that was positive and otherwise the default (1, 1000, one second); and
every other field is as in the input. -/
theorem Validate_defaults (c : Config) (h : c.Validate.2 = none) :
    c.Validate.1 =
        { c with
          Server := { c.Server with
                      Workers := if 0 < c.Server.Workers then c.Server.Workers else 1 },
          Writers := { c.Writers with
                       BatchSize :=
                         if 0 < c.Writers.BatchSize then c.Writers.BatchSize else 1000,
                       FlushInterval :=
                         if 0 < c.Writers.FlushInterval then c.Writers.FlushInterval
                         else 1000000000 } }
      ∧ 1 ≤ c.Validate.1.Server.Workers
      ∧ 1 ≤ c.Validate.1.Writers.BatchSize
      ∧ 0 < c.Validate.1.Writers.FlushInterval := by
  by_cases hp : c.Server.Port ≤ 0 ∨ c.Server.Port > 65535
  · rw [Validate_of_port_out_of_range c hp] at h
    exact Option.noConfusion h
  · rw [Validate_of_port_in_range c (by omega)]
    refine ⟨rfl, ?_, ?_, ?_⟩
    · show 1 ≤ (if 0 < c.Server.Workers then c.Server.Workers else 1)
      split_ifs <;> omega
    · show 1 ≤ (if 0 < c.Writers.BatchSize then c.Writers.BatchSize else 1000)
      split_ifs <;> omega
    · show 0 < (if 0 < c.Writers.FlushInterval then c.Writers.FlushInterval else Second)
      unfold Second
      split_ifs <;> omega

theorem Validate_defaults_witness :
    sampleConfig.Validate.2 = none
      ∧ sampleConfig.Validate.1.Server.Workers = 1
      ∧ sampleConfig.Validate.1.Writers.BatchSize = 1000
      ∧ sampleConfig.Validate.1.Writers.FlushInterval = 1000000000
      ∧ 1 ≤ sampleConfig.Validate.1.Server.Workers
      ∧ 1 ≤ sampleConfig.Validate.1.Writers.BatchSize
      ∧ 0 < sampleConfig.Validate.1.Writers.FlushInterval :=
  have h := Validate_defaults sampleConfig (by decide)
  ⟨by decide, by decide, by decide, by decide, h.2.1, h.2.2.1, h.2.2.2⟩

/-- C17, counterexample: a configuration with a valid port, writer type "parquet" and a
Parquet sub-config is rejected as an unknown writer type. -/
theorem Validate_parquet_rejected :
    (parquetOnlyConfig "parquet").Server.Port = 9060
      ∧ (parquetOnlyConfig "parquet").Writers.Type_ = "parquet"
      ∧ (parquetOnlyConfig "parquet").Writers.Parquet.isSome = true
      ∧ (parquetOnlyConfig "parquet").Validate.2 = some (.unknownWriterType "parquet") := by
  decide

/-- C17, as amended: for a configuration with server port in `[1, 65535]`, writer type
"clickhouse" is accepted if and only if the ClickHouse sub-config is present, writer
type "elastic" is accepted if and only if the Elastic sub-config is present, and writer
type "parquet" is rejected as an unknown writer type, with or without a Parquet
sub-config. -/
theorem Validate_single_sink (c : Config)
    (hport : 1 ≤ c.Server.Port ∧ c.Server.Port ≤ 65535) :
    (c.Writers.Type_ = "clickhouse" →
        (c.Validate.2 = none ↔ c.Writers.ClickHouse.isSome = true))
      ∧ (c.Writers.Type_ = "elastic" →
        (c.Validate.2 = none ↔ c.Writers.Elastic.isSome = true))
      ∧ (c.Writers.Type_ = "parquet" →
        c.Validate.2 = some (.unknownWriterType "parquet")) := by
  rw [Validate_of_port_in_range c hport]
  refine ⟨fun ht => ?_, fun ht => ?_, fun ht => ?_⟩
  · simp only [ht, if_true]
    cases c.Writers.ClickHouse <;> simp
  · have h1 : ¬ ("elastic" = "clickhouse") := by decide
    simp only [ht, h1, if_false, if_true]
    cases c.Writers.Elastic <;> simp
  · have h1 : ¬ ("parquet" = "clickhouse") := by decide
    have h2 : ¬ ("parquet" = "elastic") := by decide
    have h3 : ¬ ("parquet" = "multi") := by decide
    simp only [ht, h1, h2, h3, if_false]

theorem Validate_single_sink_witness :
    (sampleConfig.Validate.2 = none ↔ sampleConfig.Writers.ClickHouse.isSome = true)
      ∧ (parquetOnlyConfig "elastic").Validate.2 ≠ none
      ∧ (parquetOnlyConfig "parquet").Validate.2 = some (.unknownWriterType "parquet") :=
  ⟨(Validate_single_sink sampleConfig (by decide)).1 rfl,
   fun h => absurd (((Validate_single_sink (parquetOnlyConfig "elastic") (by decide)).2.1 rfl).mp h)
     (by decide),
   (Validate_single_sink (parquetOnlyConfig "parquet") (by decide)).2.2 rfl⟩

/-- C18, counterexample: a configuration with a valid port, writer type "multi" and a
Parquet sub-config as its only sink is rejected ("at least one writer required"). -/
theorem Validate_multi_parquet_only_rejected :
    (parquetOnlyConfig "multi").Server.Port = 9060
      ∧ (parquetOnlyConfig "multi").Writers.Type_ = "multi"
      ∧ (parquetOnlyConfig "multi").Writers.Parquet.isSome = true
      ∧ (parquetOnlyConfig "multi").Validate.2 = some .atLeastOneWriterRequired := by
  decide

/-- C18, as amended: for a configuration with server port in `[1, 65535]` and writer
type "multi", `Validate` succeeds if and only if the ClickHouse sub-config or the
Elastic sub-config is present; the Parquet sub-config does not count. -/
theorem Validate_multi (c : Config)
    (hport : 1 ≤ c.Server.Port ∧ c.Server.Port ≤ 65535) (ht : c.Writers.Type_ = "multi") :
    c.Validate.2 = none
      ↔ (c.Writers.ClickHouse.isSome = true ∨ c.Writers.Elastic.isSome = true) := by
  rw [Validate_of_port_in_range c hport]
  have h1 : ¬ ("multi" = "clickhouse") := by decide
  have h2 : ¬ ("multi" = "elastic") := by decide
  simp only [ht, h1, h2, if_false, if_true]
  cases c.Writers.ClickHouse <;> cases c.Writers.Elastic <;> simp

theorem Validate_multi_witness :
    ({ sampleConfig with Writers := { sampleConfig.Writers with Type_ := "multi" } }
        : Config).Validate.2 = none :=
  (Validate_multi _ (by decide) rfl).mpr (Or.inl rfl)

/-! ## Writer statistics -/

theorem addUint64_of_lt (a b : Nat) (h : a + b < 18446744073709551616) :
    addUint64 a b = a + b := by
  unfold addUint64
  exact Nat.mod_eq_of_lt h

theorem updateStats_fields (w : BaseWriter) (k : StatsCall) (h : k.fits w) :
    (w.updateStats k.written k.bytes k.err k.now).stats.PacketsReceived
        = w.stats.PacketsReceived + 1
      ∧ (w.updateStats k.written k.bytes k.err k.now).stats.PacketsWritten
        = w.stats.PacketsWritten + (if k.written = true then 1 else 0)
      ∧ (w.updateStats k.written k.bytes k.err k.now).stats.BytesWritten
        = w.stats.BytesWritten + (if k.written = true then k.bytes else 0)
      ∧ (w.updateStats k.written k.bytes k.err k.now).stats.Errors
        = w.stats.Errors + (if k.err.isSome = true then 1 else 0) := by
  obtain ⟨h1, h2, h3⟩ := h
  obtain ⟨written, bytes, err, now⟩ := k
  have e1 := addUint64_of_lt _ _ h1
  cases written with
  | false =>
    cases err with
    | none => simp [BaseWriter.updateStats, e1]
    | some e =>
      have e4 := addUint64_of_lt _ _ (h3 rfl)
      simp [BaseWriter.updateStats, e1, e4]
  | true =>
    have e2 := addUint64_of_lt _ _ (h2 rfl).1
    have e3 := addUint64_of_lt _ _ (h2 rfl).2
    cases err with
    | none => simp [BaseWriter.updateStats, e1, e2, e3]
    | some e =>
      have e4 := addUint64_of_lt _ _ (h3 rfl)
      simp [BaseWriter.updateStats, e1, e2, e3, e4]

theorem updateAll_append (w : BaseWriter) (calls : List StatsCall) (k : StatsCall) :
    w.updateAll (calls ++ [k])
      = (w.updateAll calls).updateStats k.written k.bytes k.err k.now := by
  simp [BaseWriter.updateAll, List.foldl_append]

theorem noOverflow_append (calls : List StatsCall) :
    ∀ (w : BaseWriter) (k : StatsCall), noOverflow w (calls ++ [k]) →
      noOverflow w calls ∧ k.fits (w.updateAll calls) := by
  induction calls with
  | nil =>
    intro w k h
    exact ⟨trivial, h.1⟩
  | cons c calls ih =>
    intro w k h
    have h' := ih _ k h.2
    exact ⟨⟨h.1, h'.1⟩, h'.2⟩

theorem updateAll_received_ge (calls : List StatsCall) :
    ∀ w : BaseWriter, noOverflow w calls →
      (∀ x ∈ calls, ¬ x.writtenWithError) →
      w.stats.PacketsWritten + w.stats.Errors ≤ w.stats.PacketsReceived →
      (w.updateAll calls).stats.PacketsWritten + (w.updateAll calls).stats.Errors
        ≤ (w.updateAll calls).stats.PacketsReceived := by
  induction calls with
  | nil => intro w _ _ h; exact h
  | cons c calls ih =>
    intro w hfit hex h
    have hc := updateStats_fields w c hfit.1
    have hne : ¬ c.writtenWithError := hex c (List.mem_cons_self _ _)
    refine ih _ hfit.2 (fun x hx => hex x (List.mem_cons_of_mem _ hx)) ?_
    have h1 := hc.1
    have h2 := hc.2.1
    have h4 := hc.2.2.2
    beta_reduce
    by_cases hw : c.written = true <;> by_cases he : c.err.isSome = true
    · exact absurd ⟨hw, he⟩ hne
    · rw [if_pos hw] at h2
      rw [if_neg he] at h4
      omega
    · rw [if_neg hw] at h2
      rw [if_pos he] at h4
      omega
    · rw [if_neg hw] at h2
      rw [if_neg he] at h4
      omega

/-- C19, counterexample: one call `updateStats(true, 0, err)` with a non-nil error on
the zero statistics leaves received = 1, written = 1 and errors = 1, so received is
smaller than written + errors. -/
theorem updateStats_written_with_error :
    ((BaseWriter.mk WriterStats.zero).updateStats true 0 (some "flush failed") 1).stats
        = { PacketsReceived := 1, PacketsWritten := 1, BytesWritten := 0, Errors := 1,
            LastError := some "flush failed", LastWrite := 1 }
      ∧ ¬ (1 + 1 ≤ ((BaseWriter.mk WriterStats.zero).updateStats true 0
            (some "flush failed") 1).stats.PacketsReceived) := by
  decide

/-- C19, as amended: starting from the zero statistics, after every sequence of
`updateStats` calls in which no addition exceeds 64 bits, each of the four counters is
at least its value before the last call; and if no call of the sequence reports a
successful write together with a non-nil error, then `PacketsReceived` is at least
`PacketsWritten + Errors`. -/
theorem updateStats_invariant (calls : List StatsCall) (k : StatsCall)
    (hfit : noOverflow (BaseWriter.mk WriterStats.zero) (calls ++ [k])) :
    ((BaseWriter.mk WriterStats.zero).updateAll calls).stats.PacketsReceived
        ≤ ((BaseWriter.mk WriterStats.zero).updateAll (calls ++ [k])).stats.PacketsReceived
      ∧ ((BaseWriter.mk WriterStats.zero).updateAll calls).stats.PacketsWritten
        ≤ ((BaseWriter.mk WriterStats.zero).updateAll (calls ++ [k])).stats.PacketsWritten
      ∧ ((BaseWriter.mk WriterStats.zero).updateAll calls).stats.BytesWritten
        ≤ ((BaseWriter.mk WriterStats.zero).updateAll (calls ++ [k])).stats.BytesWritten
      ∧ ((BaseWriter.mk WriterStats.zero).updateAll calls).stats.Errors
        ≤ ((BaseWriter.mk WriterStats.zero).updateAll (calls ++ [k])).stats.Errors
      ∧ ((∀ x ∈ calls ++ [k], ¬ x.writtenWithError) →
          ((BaseWriter.mk WriterStats.zero).updateAll (calls ++ [k])).stats.PacketsWritten
            + ((BaseWriter.mk WriterStats.zero).updateAll (calls ++ [k])).stats.Errors
          ≤ ((BaseWriter.mk WriterStats.zero).updateAll (calls ++ [k])).stats.PacketsReceived) := by
  have hk := (noOverflow_append calls _ k hfit).2
  have hf := updateStats_fields _ k hk
  refine ⟨?_, ?_, ?_, ?_, fun hex => ?_⟩
  · rw [updateAll_append, hf.1]; omega
  · rw [updateAll_append, hf.2.1]; omega
  · rw [updateAll_append, hf.2.2.1]; omega
  · rw [updateAll_append, hf.2.2.2]; omega
  · exact updateAll_received_ge (calls ++ [k]) _ hfit hex (Nat.le_refl _)

theorem updateStats_invariant_witness :
    ((BaseWriter.mk WriterStats.zero).updateAll
        [⟨false, 0, some "append failed", 1⟩, ⟨true, 100, none, 2⟩]).stats
      = { PacketsReceived := 2, PacketsWritten := 1, BytesWritten := 100, Errors := 1,
          LastError := some "append failed", LastWrite := 2 }
    ∧ 1 + 1 ≤ ((BaseWriter.mk WriterStats.zero).updateAll
        ([⟨false, 0, some "append failed", 1⟩] ++ [⟨true, 100, none, 2⟩])).stats.PacketsReceived :=
  ⟨by decide,
   (updateStats_invariant [⟨false, 0, some "append failed", 1⟩] ⟨true, 100, none, 2⟩
      ⟨by decide, by decide, trivial⟩).2.2.2.2 (by decide)⟩

/-! ## Batch writer -/

theorem ClickHouseWriter_batches_handle (w : ClickHouseWriter) (e : SinkEvent) :
    (w.handle e).batches = w.batches := by
  cases e with
  | Write packet =>
    simp only [ClickHouseWriter.handle]
    split_ifs <;> rfl
  | Tick =>
    simp only [ClickHouseWriter.handle]
    split_ifs <;> rfl
  | Close => rfl

theorem ClickHouseWriter_batches_run (events : List SinkEvent) :
    ∀ w : ClickHouseWriter, (w.run events).batches = w.batches := by
  induction events with
  | nil => intro w; rfl
  | cons e events ih =>
    intro w
    simp only [ClickHouseWriter.run, List.foldl_cons] at ih ⊢
    rw [ih, ClickHouseWriter_batches_handle]

theorem ClickHouseWriter_batches_flush (w : ClickHouseWriter)
    (h : w.BatchWriter.buffer ≠ []) :
    w.flush.batches = w.batches ++ [w.BatchWriter.buffer]
      ∧ w.flush.BatchWriter.buffer = [] := by
  have hl : ¬ w.BatchWriter.buffer.length = 0 := by
    intro h0
    exact h (List.length_eq_zero.mp h0)
  unfold ClickHouseWriter.flush
  rw [if_neg hl]
  exact ⟨rfl, rfl⟩

/-- C20: with batch size 3, seven packets are submitted with `Write` to a
`ClickHouseWriter` and `Close` follows, every flush trigger being handled before the
next call. The specification expects the flush routine of the sink to receive the
batches of sizes 3, 3, 1. In the code every trigger runs `BatchWriter.flush`, which
discards the buffer: the flush routine of the sink receives no batch at all, and after
`Close` the buffer is empty, so all seven packets are lost. -/
theorem ClickHouseWriter_seven_packets_lost :
    ((newSink 3).run (sevenPackets.map SinkEvent.Write ++ [SinkEvent.Close])).batches = []
      ∧ ((newSink 3).run (sevenPackets.map SinkEvent.Write
            ++ [SinkEvent.Close])).BatchWriter.buffer = []
      ∧ (((newSink 3).run (sevenPackets.map SinkEvent.Write
            ++ [SinkEvent.Close])).batches.map List.length) ≠ [3, 3, 1] := by
  decide

/-! ## Termination of the chunk loop -/

theorem decodeHEPv3Loop_succ (fuel : Nat) (data : List Byte) (cursor : Nat)
    (p : HEPPacket) :
    decodeHEPv3Loop (fuel + 1) data cursor p =
      if cursor < data.length then
        decodeHEPv3Step data cursor p >>= fun r => decodeHEPv3Loop fuel data r.1 r.2
      else .ok p := by
  rw [decodeHEPv3Loop, decodeHEPv3Step]
  by_cases h1 : cursor < data.length
  · rw [if_pos h1, if_pos h1]
    by_cases h2 : cursor + 6 > data.length
    · rw [if_pos h2, if_pos h2]
      rfl
    · rw [if_neg h2, if_neg h2]
      cases slice data cursor (cursor + 2) >>= Uint16 with
      | error e => rfl
      | ok vendorID =>
        cases slice data (cursor + 2) (cursor + 4) >>= Uint16 with
        | error e => rfl
        | ok chunkType =>
          cases slice data (cursor + 4) (cursor + 6) >>= Uint16 with
          | error e => rfl
          | ok length =>
            simp only [ok_bind]
            by_cases h3 : cursor + 6 + subUint16 length 6 > data.length
            · rw [if_pos h3, if_pos h3]
              rfl
            · rw [if_neg h3, if_neg h3]
              cases slice data (cursor + 6) (cursor + 6 + subUint16 length 6) with
              | error e => rfl
              | ok chunkData =>
                simp only [ok_bind]
                cases chunkSwitch p
                    { VendorID := vendorID, ChunkType := chunkType, Length := length,
                      Data := chunkData } with
                | error e => rfl
                | ok p1 => rfl
  · rw [if_neg h1, if_neg h1]

theorem decodeHEPv3Step_cursor (data : List Byte) (cursor : Nat) (p : HEPPacket)
    (r : Nat × HEPPacket) (h : decodeHEPv3Step data cursor p = .ok r) :
    cursor + 6 ≤ r.1 ∧ r.1 ≤ data.length := by
  rw [decodeHEPv3Step] at h
  by_cases h2 : cursor + 6 > data.length
  · rw [if_pos h2] at h
    exact Except.noConfusion h
  · rw [if_neg h2] at h
    cases h4 : slice data cursor (cursor + 2) >>= Uint16 with
    | error e => rw [h4] at h; exact Except.noConfusion h
    | ok vendorID =>
      cases h5 : slice data (cursor + 2) (cursor + 4) >>= Uint16 with
      | error e => rw [h4, h5] at h; exact Except.noConfusion h
      | ok chunkType =>
        cases h6 : slice data (cursor + 4) (cursor + 6) >>= Uint16 with
        | error e => rw [h4, h5, h6] at h; exact Except.noConfusion h
        | ok length =>
          rw [h4, h5, h6] at h
          simp only [ok_bind] at h
          by_cases h3 : cursor + 6 + subUint16 length 6 > data.length
          · rw [if_pos h3] at h
            exact Except.noConfusion h
          · rw [if_neg h3] at h
            cases h7 : slice data (cursor + 6) (cursor + 6 + subUint16 length 6) with
            | error e => rw [h7] at h; exact Except.noConfusion h
            | ok chunkData =>
              rw [h7] at h
              simp only [ok_bind] at h
              cases h8 : chunkSwitch p
                  { VendorID := vendorID, ChunkType := chunkType, Length := length,
                    Data := chunkData } with
              | error e => rw [h8] at h; exact Except.noConfusion h
              | ok p1 =>
                rw [h8] at h
                have hr : (cursor + 6 + subUint16 length 6, p1) = r := Except.ok.inj h
                rw [← hr]
                constructor
                · exact Nat.le_add_right _ _
                · exact Nat.le_of_not_gt h3

theorem decodeHEPv3Iterate_cursor (k : Nat) :
    ∀ (data : List Byte) (cursor : Nat) (p : HEPPacket) (r : Nat × HEPPacket),
      cursor ≤ data.length → decodeHEPv3Iterate k data cursor p = some r →
      cursor + 6 * k ≤ r.1 ∧ r.1 ≤ data.length := by
  induction k with
  | zero =>
    intro data cursor p r hc h
    rw [decodeHEPv3Iterate] at h
    have hr : (cursor, p) = r := Option.some.inj h
    rw [← hr]
    exact ⟨Nat.le_refl _, hc⟩
  | succ k ih =>
    intro data cursor p r hc h
    rw [decodeHEPv3Iterate] at h
    by_cases h1 : cursor < data.length
    · rw [if_pos h1] at h
      cases hs : decodeHEPv3Step data cursor p with
      | error e => rw [hs] at h; exact Option.noConfusion h
      | ok r1 =>
        rw [hs] at h
        have hb := decodeHEPv3Step_cursor data cursor p r1 hs
        have := ih data r1.1 r1.2 r hb.2 h
        omega
    · rw [if_neg h1] at h
      exact Option.noConfusion h

theorem decodeHEPv3Loop_fuel (f1 : Nat) :
    ∀ (f2 : Nat) (data : List Byte) (cursor : Nat) (p : HEPPacket),
      data.length ≤ cursor + 6 * f1 → data.length ≤ cursor + 6 * f2 →
      decodeHEPv3Loop f1 data cursor p = decodeHEPv3Loop f2 data cursor p := by
  induction f1 with
  | zero =>
    intro f2 data cursor p h1 _
    rw [decodeHEPv3Loop_of_ge 0 data cursor p (by omega),
      decodeHEPv3Loop_of_ge f2 data cursor p (by omega)]
  | succ f1 ih =>
    intro f2 data cursor p h1 h2
    cases f2 with
    | zero =>
      rw [decodeHEPv3Loop_of_ge (f1 + 1) data cursor p (by omega),
        decodeHEPv3Loop_of_ge 0 data cursor p (by omega)]
    | succ f2 =>
      rw [decodeHEPv3Loop_succ, decodeHEPv3Loop_succ]
      by_cases hc : cursor < data.length
      · rw [if_pos hc, if_pos hc]
        cases hs : decodeHEPv3Step data cursor p with
        | error e => rfl
        | ok r =>
          have hb := decodeHEPv3Step_cursor data cursor p r hs
          simp only [ok_bind]
          exact ih f2 data r.1 r.2 (by omega) (by omega)
      · rw [if_neg hc, if_neg hc]

theorem decodeHEPv3Loop_iterate (k : Nat) :
    ∀ (fuel : Nat) (data : List Byte) (cursor : Nat) (p : HEPPacket) (r : Nat × HEPPacket),
      decodeHEPv3Iterate k data cursor p = some r →
      decodeHEPv3Loop (k + fuel) data cursor p = decodeHEPv3Loop fuel data r.1 r.2 := by
  induction k with
  | zero =>
    intro fuel data cursor p r h
    rw [decodeHEPv3Iterate] at h
    have hr : (cursor, p) = r := Option.some.inj h
    rw [← hr, Nat.zero_add]
  | succ k ih =>
    intro fuel data cursor p r h
    rw [decodeHEPv3Iterate] at h
    by_cases h1 : cursor < data.length
    · rw [if_pos h1] at h
      cases hs : decodeHEPv3Step data cursor p with
      | error e => rw [hs] at h; exact Option.noConfusion h
      | ok r1 =>
        rw [hs] at h
        have hk : k + 1 + fuel = (k + fuel) + 1 := by omega
        rw [hk, decodeHEPv3Loop_succ, if_pos h1, hs, ok_bind]
        exact ih fuel data r1.1 r1.2 r h
    · rw [if_neg h1] at h
      exact Option.noConfusion h

/-- C25: the chunk loop of `decodeHEPv3` terminates on every input. Every iteration that
runs to its end (`decodeHEPv3Step` returns a new cursor) moves the cursor forward by at
least 6, also when the length field is below 6 and the 16-bit subtraction wraps, and
leaves it at most at `len(data)`. Hence, starting at cursor 6 in a buffer of `n >= 6`
bytes, `k` completed iterations leave the cursor between `6 + 6 * k` and `n`, so at most
`(n - 6) / 6` chunks are processed; and the loop reaches its result as soon as it is
given `fuel` iterations with `n <= 6 + 6 * fuel`, never running out of the `n` that
`decodeHEPv3` provides. -/
theorem decodeHEPv3_loop_terminates :
    (∀ (data : List Byte) (cursor : Nat) (p : HEPPacket) (r : Nat × HEPPacket),
        decodeHEPv3Step data cursor p = .ok r → cursor + 6 ≤ r.1 ∧ r.1 ≤ data.length)
      ∧ (∀ (k : Nat) (data : List Byte) (p : HEPPacket) (r : Nat × HEPPacket),
          6 ≤ data.length → decodeHEPv3Iterate k data 6 p = some r →
          6 + 6 * k ≤ r.1 ∧ r.1 ≤ data.length ∧ k ≤ (data.length - 6) / 6)
      ∧ (∀ (fuel : Nat) (data : List Byte) (p : HEPPacket),
          data.length ≤ 6 + 6 * fuel →
          decodeHEPv3Loop fuel data 6 p = decodeHEPv3Loop data.length data 6 p
            ∧ decodeHEPv3Loop data.length data 6 p ≠ .error .fuelExhausted) := by
  refine ⟨decodeHEPv3Step_cursor, ?_, ?_⟩
  · intro k data p r hn h
    have hb := decodeHEPv3Iterate_cursor k data 6 p r hn h
    refine ⟨hb.1, hb.2, ?_⟩
    rw [Nat.le_div_iff_mul_le (by decide)]
    omega
  · intro fuel data p h
    exact ⟨decodeHEPv3Loop_fuel fuel data.length data 6 p h (by omega),
      decodeHEPv3Loop_ne_fuelExhausted data.length data 6 p (by omega)⟩

theorem decodeHEPv3_loop_terminates_witness :
    ∃ r, decodeHEPv3Iterate 10 (encodeHEPv3 3 0 0 0 testChunksV3) 6
          { HEPPacket.zero with Version := 3 } = some r
      ∧ r.1 = 97
      ∧ 6 + 6 * 10 ≤ r.1 ∧ r.1 ≤ (encodeHEPv3 3 0 0 0 testChunksV3).length
      ∧ 10 ≤ ((encodeHEPv3 3 0 0 0 testChunksV3).length - 6) / 6 :=
  ⟨(97, { Version := 3, Protocol := 2, SrcIP := "192.168.1.1", DstIP := "192.168.1.2",
          SrcPort := 5060, DstPort := 5060, Timestamp := 0, ProtoType := 1, NodeID := 2001,
          NodeName := "", Payload := [84, 69, 83, 84], CID := [], Vlan := 0 }),
    by decide, by decide,
    decodeHEPv3_loop_terminates.2.1 10 (encodeHEPv3 3 0 0 0 testChunksV3)
      { HEPPacket.zero with Version := 3 } _ (by decide) (by decide)⟩

/-! ## Write after Close -/

theorem BatchWriter_Close_buffer (w : BatchWriter) :
    w.Close.buffer = [] ∧ w.Close.doneClosed = true := by
  unfold BatchWriter.Close BatchWriter.flush
  by_cases h : w.buffer.length = 0
  · rw [if_pos h]
    exact ⟨List.length_eq_zero.mp h, rfl⟩
  · rw [if_neg h]
    exact ⟨rfl, rfl⟩

theorem BatchWriter_WriteCall_buffer (w : BatchWriter) (packet : HEPPacket)
    (loopReceives : Bool) :
    (w.WriteCall packet loopReceives).1.buffer = w.buffer ++ [packet] := by
  unfold BatchWriter.WriteCall
  by_cases h : (w.Write packet).2 = true
  · by_cases h2 : loopReceives = true
    · simp only [h, h2, if_true]
      rfl
    · simp only [h, h2, if_true, if_false]
      rfl
  · simp only [h, if_false]
    rfl

theorem BatchWriter_WriteCall_outcome (w : BatchWriter) (packet : HEPPacket)
    (loopReceives : Bool) :
    (∀ e, (w.WriteCall packet loopReceives).2 ≠ .returned (some e))
      ∧ ((w.Write packet).2 = false →
          (w.WriteCall packet loopReceives).2 = .returned none) := by
  unfold BatchWriter.WriteCall
  constructor
  · intro e
    by_cases h : (w.Write packet).2 = true
    · by_cases h2 : loopReceives = true
      · simp only [h, h2, if_true]
        simp
      · simp only [h, h2, if_true, if_false]
        simp
    · simp only [h, if_false]
      simp
  · intro h
    simp only [h, Bool.false_eq_true, if_false]

/-- C21, counterexample: after `Close` has returned on a writer with batch size 3, a
`Write` returns `nil`, not an error, and the packet is in the buffer. -/
theorem BatchWriter_Write_after_Close_accepted :
    (NewBatchWriter 3).Close.buffer = []
      ∧ ((NewBatchWriter 3).Close.WriteCall samplePacket true).2 = .returned none
      ∧ ((NewBatchWriter 3).Close.WriteCall samplePacket false).2 = .returned none
      ∧ ((NewBatchWriter 3).Close.WriteCall samplePacket true).1.buffer = [samplePacket] := by
  decide

/-- C21, as amended: after `BatchWriter.Close` has returned, a subsequent
`Write(packet)` never returns an error; it appends the packet to the buffer, which
`Close` had left empty, and as long as the buffered count stays below the batch size it
returns `nil`. -/
theorem BatchWriter_Write_after_Close (w : BatchWriter) (packet : HEPPacket)
    (loopReceives : Bool) :
    (w.Close.WriteCall packet loopReceives).1.buffer = [packet]
      ∧ (∀ e, (w.Close.WriteCall packet loopReceives).2 ≠ .returned (some e))
      ∧ ((w.Close.Write packet).2 = false →
          (w.Close.WriteCall packet loopReceives).2 = .returned none) := by
  refine ⟨?_, (BatchWriter_WriteCall_outcome _ _ _).1, (BatchWriter_WriteCall_outcome _ _ _).2⟩
  rw [BatchWriter_WriteCall_buffer, (BatchWriter_Close_buffer w).1]
  rfl

theorem BatchWriter_Write_after_Close_witness :
    ((NewBatchWriter 3).Close.WriteCall samplePacket false).1.buffer = [samplePacket]
      ∧ ((NewBatchWriter 3).Close.WriteCall samplePacket false).2 = .returned none :=
  ⟨(BatchWriter_Write_after_Close (NewBatchWriter 3) samplePacket false).1,
   (BatchWriter_Write_after_Close (NewBatchWriter 3) samplePacket false).2.2 (by decide)⟩

/-! ## Payload ownership -/

theorem payloadStorage_read (data : List Byte) (p : HEPPacket) (h : DecodeHEP data = .ok p) :
    ∃ s, payloadStorage data = .ok s ∧ s.read data = p.Payload := by
  have h4 : ¬ data.length < 4 := by
    intro hlt
    rw [DecodeHEP_of_length_lt data hlt] at h
    cases h
  have hidx : index data 0 = .ok (data.getD 0 0) := index_of_lt data 0 (by omega)
  unfold payloadStorage
  rw [h, ok_bind, hidx, ok_bind]
  unfold DecodeHEP at h
  rw [if_neg h4, hidx, ok_bind] at h
  by_cases h3 : (data.getD 0 0).val = HEPv3
  · rw [if_pos h3]
    exact ⟨_, rfl, rfl⟩
  · rw [if_neg h3] at h ⊢
    by_cases h2 : (data.getD 0 0).val = HEPv2
    · rw [if_pos h2] at h ⊢
      refine ⟨_, rfl, ?_⟩
      by_cases hl : data.length < 31
      · rw [decodeHEPv2_of_length_lt data hl] at h
        cases h
      · rw [decodeHEPv2_of_length data (by omega)] at h
        cases h
        rfl
    · rw [if_neg h2] at h ⊢
      by_cases h1 : (data.getD 0 0).val = HEPv1
      · rw [if_pos h1] at h
        refine ⟨_, rfl, ?_⟩
        by_cases hl : data.length < 21
        · rw [decodeHEPv1_of_length_lt data hl] at h
          cases h
        · by_cases he : data.length = 21
          · rw [decodeHEPv1_of_length_eq data he] at h
            cases h
          · rw [decodeHEPv1_of_length data (by omega)] at h
            cases h
            rfl
      · rw [if_neg h1] at h
        cases h

theorem payloadStorage_v1 (B : List Byte) (h0 : B.head? = some 1) (hlen : 22 ≤ B.length) :
    payloadStorage B = .ok (.buffer 22) := by
  unfold payloadStorage
  rw [DecodeHEP_v1 B h0 (by omega), decodeHEPv1_of_length B hlen, ok_bind,
    index_of_head B 1 h0, ok_bind]
  rfl

theorem payloadStorage_v2 (B : List Byte) (h0 : B.head? = some 2) (hlen : 31 ≤ B.length) :
    payloadStorage B = .ok (.buffer 24) := by
  unfold payloadStorage
  rw [DecodeHEP_v2 B h0 (by omega), decodeHEPv2_of_length B hlen, ok_bind,
    index_of_head B 2 h0, ok_bind]
  rfl

theorem payloadStorage_v3 (B : List Byte) (s : PayloadStorage) (h0 : B.head? = some 3)
    (h : payloadStorage B = .ok s) : ∀ memory, s.read memory = s.read B := by
  unfold payloadStorage at h
  cases hd : DecodeHEP B with
  | error e =>
    rw [hd, error_bind] at h
    cases h
  | ok p =>
    rw [hd, ok_bind, index_of_head B 3 h0, ok_bind] at h
    have hs : s = .copy p.Payload := by
      have h3 : (3 : Byte).val = HEPv3 := rfl
      rw [if_pos h3] at h
      cases h
      rfl
    subst hs
    intro memory
    rfl

theorem PayloadStorage_buffer_overwrite (B : List Byte) (lo i : Nat) (b : Byte)
    (hlo : lo ≤ i) (hi : i < B.length) (hb : b ≠ B.getD i 0) :
    (PayloadStorage.buffer lo).read (B.set i b) ≠ (PayloadStorage.buffer lo).read B := by
  intro h
  have e : ((B.set i b).drop lo)[i - lo]? = (B.drop lo)[i - lo]? := by
    have h2 : (B.set i b).drop lo = B.drop lo := h
    rw [h2]
  rw [List.getElem?_drop, List.getElem?_drop] at e
  have e2 : lo + (i - lo) = i := by omega
  rw [e2, List.getElem?_set_self (by simpa using hi), List.getElem?_eq_getElem hi] at e
  apply hb
  simp only [Option.some.injEq] at e
  rw [e]
  simp [List.getD, List.getElem?_eq_getElem hi]

/-- C22: payload ownership asks that the payload of every decoded packet, of version 1
and 2 as well, is a copy that survives the decoded buffer being overwritten. For the
version-1 buffer of `TestHEPv1Decode` and the version-2 buffer of `TestHEPv2Decode`
the payload is the slice `data[22:]` (`data[24:]`) of the buffer itself: once the first
payload byte of the buffer is overwritten with `X`, the payload of the packet reads
"XEST..." and no longer "TEST...". -/
theorem DecodeHEP_v1_v2_payload_shares_buffer :
    (∃ p s, DecodeHEP testPacketV1 = .ok p ∧ payloadStorage testPacketV1 = .ok s
        ∧ s = .buffer 22
        ∧ s.read testPacketV1 = p.Payload
        ∧ p.Payload = [84, 69, 83, 84, 0, 0, 0, 0]
        ∧ s.read (testPacketV1.set 22 88) = [88, 69, 83, 84, 0, 0, 0, 0]
        ∧ s.read (testPacketV1.set 22 88) ≠ p.Payload)
      ∧ (∃ p s, DecodeHEP testPacketV2 = .ok p ∧ payloadStorage testPacketV2 = .ok s
        ∧ s = .buffer 24
        ∧ s.read testPacketV2 = p.Payload
        ∧ p.Payload = [84, 69, 83, 84, 0, 0, 0, 0, 0, 0, 0]
        ∧ s.read (testPacketV2.set 24 88) = [88, 69, 83, 84, 0, 0, 0, 0, 0, 0, 0]
        ∧ s.read (testPacketV2.set 24 88) ≠ p.Payload) := by
  refine ⟨⟨v1Layout testPacketV1, .buffer 22, ?_, payloadStorage_v1 testPacketV1 rfl (by decide),
      rfl, rfl, rfl, rfl, by decide⟩,
    ⟨v2Layout testPacketV2, .buffer 24, ?_, payloadStorage_v2 testPacketV2 rfl (by decide),
      rfl, rfl, rfl, rfl, by decide⟩⟩
  · rw [DecodeHEP_v1 testPacketV1 rfl (by decide), decodeHEPv1_of_length testPacketV1 (by decide)]
  · rw [DecodeHEP_v2 testPacketV2 rfl (by decide), decodeHEPv2_of_length testPacketV2 (by decide)]

/-! ## The batch size of the constructed writer -/

theorem initializeWriter_batchSize (cfg : Config) (driverErr : Option String) (w : Writer)
    (h : initializeWriter cfg driverErr = .ok w) : w.batchWriter.batchSize = 0 := by
  unfold initializeWriter at h
  by_cases h1 : cfg.Writers.Type_ = "clickhouse"
  · rw [if_pos h1] at h
    cases hc : cfg.Writers.ClickHouse with
    | none =>
      rw [hc] at h
      cases h
    | some ch =>
      rw [hc] at h
      cases driverErr with
      | some err => cases h
      | none =>
        cases h
        rfl
  · rw [if_neg h1] at h
    by_cases h2 : cfg.Writers.Type_ = "elastic"
    · rw [if_pos h2] at h
      cases driverErr with
      | some err => cases h
      | none =>
        cases h
        rfl
    · rw [if_neg h2] at h
      cases h

theorem initializeWriter_clickhouse (cfg : Config) (ch : ClickHouseConfig)
    (ht : cfg.Writers.Type_ = "clickhouse") (hc : cfg.Writers.ClickHouse = some ch) :
    initializeWriter cfg none
      = .ok (.clickhouse { BatchWriter := NewBatchWriter 0, tableName := ch.Table,
                            batches := [] }) := by
  unfold initializeWriter
  rw [if_pos ht, hc]
  rfl

theorem BatchWriter_Write_of_batchSize_zero (w : BatchWriter) (packet : HEPPacket)
    (h : w.batchSize = 0) : (w.Write packet).2 = true := by
  unfold BatchWriter.Write
  simp only [h, ge_iff_le, Nat.cast_nonneg, decide_True]

theorem Validate_clickhouse_accepted (cfg : Config) (hok : cfg.Validate.2 = none)
    (ht : cfg.Writers.Type_ = "clickhouse") :
    cfg.Validate.1.Writers.Type_ = "clickhouse"
      ∧ (∃ ch, cfg.Validate.1.Writers.ClickHouse = some ch)
      ∧ 1 ≤ cfg.Validate.1.Writers.BatchSize := by
  by_cases hp : cfg.Server.Port ≤ 0 ∨ cfg.Server.Port > 65535
  · rw [Validate_of_port_out_of_range cfg hp] at hok
    cases hok
  · have hr : 1 ≤ cfg.Server.Port ∧ cfg.Server.Port ≤ 65535 := by omega
    rw [Validate_of_port_in_range cfg hr] at hok ⊢
    simp only [ht, if_true] at hok
    refine ⟨ht, ?_, ?_⟩
    · show ∃ ch, cfg.Writers.ClickHouse = some ch
      cases hc : cfg.Writers.ClickHouse with
      | none =>
        rw [hc] at hok
        simp at hok
      | some ch => exact ⟨ch, rfl⟩
    · show 1 ≤ (if 0 < cfg.Writers.BatchSize then cfg.Writers.BatchSize else 1000)
      split_ifs <;> omega

/-- C23: the validated batch size is to reach the engine, so that `Write` signals a
flush exactly when the buffered count has reached `cfg.Writers.BatchSize`. For every
configuration that `Validate` accepts with writer type "clickhouse", the configured
batch size is at least 1, but `initializeWriter` (with `clickhouse.Open` succeeding)
builds a writer whose `batchSize` is 0, not the configured value, and on that writer
every `Write` signals a flush, whatever the buffer holds; no call of `initializeWriter`
returns a writer with another `batchSize` than 0. -/
theorem initializeWriter_drops_batch_size (cfg : Config) (hok : cfg.Validate.2 = none)
    (ht : cfg.Writers.Type_ = "clickhouse") :
    1 ≤ cfg.Validate.1.Writers.BatchSize
      ∧ (∃ w, initializeWriter cfg.Validate.1 none = .ok (.clickhouse w)
          ∧ w.BatchWriter.batchSize = 0
          ∧ w.BatchWriter.batchSize ≠ cfg.Validate.1.Writers.BatchSize
          ∧ ∀ buffer packet,
              (({ w.BatchWriter with buffer := buffer } : BatchWriter).Write packet).2 = true)
      ∧ (∀ driverErr w, initializeWriter cfg.Validate.1 driverErr = .ok w →
          w.batchWriter.batchSize = 0) := by
  obtain ⟨h1, ⟨ch, h2⟩, h3⟩ := Validate_clickhouse_accepted cfg hok ht
  refine ⟨h3, ⟨_, initializeWriter_clickhouse _ ch h1 h2, rfl, ?_, ?_⟩, ?_⟩
  · show (0 : Int) ≠ cfg.Validate.1.Writers.BatchSize
    omega
  · intro buffer packet
    exact BatchWriter_Write_of_batchSize_zero _ packet rfl
  · intro driverErr w h
    exact initializeWriter_batchSize _ driverErr w h

theorem initializeWriter_drops_batch_size_witness :
    sampleConfig.Validate.2 = none
      ∧ sampleConfig.Validate.1.Writers.BatchSize = 1000
      ∧ initializeWriter sampleConfig.Validate.1 none = .ok (.clickhouse (newSink 0))
      ∧ ((newSink 0).BatchWriter.Write samplePacket).2 = true
      ∧ (∃ w, initializeWriter sampleConfig.Validate.1 none = .ok (.clickhouse w)
          ∧ w.BatchWriter.batchSize = 0
          ∧ w.BatchWriter.batchSize ≠ sampleConfig.Validate.1.Writers.BatchSize
          ∧ ∀ buffer packet,
              (({ w.BatchWriter with buffer := buffer } : BatchWriter).Write packet).2 = true) :=
  ⟨by decide, by decide, by decide, by decide,
    (initializeWriter_drops_batch_size sampleConfig (by decide) rfl).2.1⟩

/-! ## Column mapping of the ClickHouse sink -/

theorem toInt64_of_lt (x : Nat) (h : x < 9223372036854775808) : toInt64 x = x := by
  unfold toInt64
  have e : x % 18446744073709551616 = x := Nat.mod_eq_of_lt (by omega)
  rw [e, if_pos h]

theorem ClickHouseWriter_row_columns (packet : HEPPacket) :
    (ClickHouseWriter.appendArgs packet).length = 11
      ∧ ClickHouseWriter.insertColumns.length = 11
      ∧ (ClickHouseWriter.row packet).map Prod.fst = ClickHouseWriter.insertColumns
      ∧ ClickHouseWriter.column "version" packet = some (.uint packet.Version)
      ∧ ClickHouseWriter.column "protocol_family" packet = some (.uint packet.Protocol)
      ∧ ClickHouseWriter.column "protocol" packet = some (.uint packet.ProtoType)
      ∧ ClickHouseWriter.column "src_ip" packet = some (.string packet.SrcIP)
      ∧ ClickHouseWriter.column "dst_ip" packet = some (.string packet.DstIP)
      ∧ ClickHouseWriter.column "src_port" packet = some (.uint packet.SrcPort)
      ∧ ClickHouseWriter.column "dst_port" packet = some (.uint packet.DstPort)
      ∧ ClickHouseWriter.column "timestamp" packet
          = some (.unixTime (toInt64 packet.Timestamp))
      ∧ ClickHouseWriter.column "payload" packet = some (.bytes packet.Payload)
      ∧ ClickHouseWriter.column "cid" packet = some (.rawString packet.CID)
      ∧ ClickHouseWriter.column "vlan" packet = some (.uint packet.Vlan) := by
  refine ⟨rfl, rfl, rfl, ?_, ?_, ?_, ?_, ?_, ?_, ?_, ?_, ?_, ?_, ?_⟩ <;>
    simp [ClickHouseWriter.column, ClickHouseWriter.row, ClickHouseWriter.insertColumns,
      ClickHouseWriter.appendArgs, List.lookup]

/-- C24: the column mapping asks that the column `protocol` of every appended row holds
the packet field `Protocol`. The row has 11 values for 11 columns, but the third
argument of `batch.Append`, which goes to the column `protocol`, is `packet.ProtoType`,
and `packet.Protocol` goes to the column `protocol_family`: for a packet with
`Protocol = 17` and `ProtoType = 1` the column `protocol` holds 1. `Search` of the same
sink reads the column `protocol` back into the field `Protocol`. -/
theorem ClickHouseWriter_flush_protocol_column :
    samplePacket.Protocol = 17 ∧ samplePacket.ProtoType = 1
      ∧ (ClickHouseWriter.appendArgs samplePacket).length = 11
      ∧ ClickHouseWriter.insertColumns.length = 11
      ∧ ClickHouseWriter.column "protocol" samplePacket = some (.uint 1)
      ∧ ClickHouseWriter.column "protocol" samplePacket ≠ some (.uint samplePacket.Protocol)
      ∧ ClickHouseWriter.column "protocol_family" samplePacket = some (.uint 17)
      ∧ (ClickHouseWriter.searchColumns.zip ClickHouseWriter.scanFields).lookup "protocol"
          = some "Protocol"
      ∧ (∀ packet : HEPPacket,
          ClickHouseWriter.column "protocol" packet = some (.uint packet.ProtoType)
            ∧ ClickHouseWriter.column "protocol_family" packet
                = some (.uint packet.Protocol)) := by
  refine ⟨rfl, rfl, rfl, rfl, by decide, by decide, by decide, by decide, fun packet => ?_⟩
  exact ⟨(ClickHouseWriter_row_columns packet).2.2.2.2.2.1,
    (ClickHouseWriter_row_columns packet).2.2.2.2.1⟩

end HEP
